import Mathlib

/-!
Verification development for the FlowDay learning-algorithm module
(`Algorithm` object in the source).  The JavaScript code is shallowly
embedded into Lean as follows:

* `"HH:MM"` clock strings become a `Time` structure holding the two numeric
  components.  All history times are zero-padded two-digit strings in the
  application, so lexicographic string comparison (`localeCompare`)
  coincides with lexicographic comparison of the numeric `(hours, minutes)`
  pair, and `timeToMinutes` acts on the components exactly as the source's
  `split(':').map(Number)` does.
* `"YYYY-MM-DD"` date strings become an epoch-day index `ℕ`.  Lexicographic
  comparison of zero-padded ISO dates agrees with numeric comparison of the
  day index, `new Date(a) - new Date(b)` in milliseconds divided by
  86 400 000 is exactly the difference of day indices, and
  `new Date(date).getDay()` becomes `(dayIndex + 4) % 7` (1970-01-01 was a
  Thursday; timezone effects on `getDay` are outside this model).
* JavaScript numbers are modelled as exact rationals `ℚ`.  `Math.round`
  (round half toward +∞) is `jsRound`, `Math.floor` is `⌊·⌋`, and the `%`
  operator is embedded for the nonnegative operands that actually reach it.
  Division by zero yields 0 in `ℚ` where JS would yield ±Infinity/NaN; no
  claim exercises that corner.
* `standardDeviation` computes `sqrt(meanSquaredDeviation)`.  Since `sqrt`
  is irrational, the embedding works with the radicand (`varianceOf`), and
  every source comparison `standardDeviation(v) < c` is embedded as
  `varianceOf v < c^2`, which is equivalent because `sqrt` is monotone and
  both sides are nonnegative.
* JavaScript objects used as keyed maps (`taskTimeMap`, `sequenceMap`, …)
  become insertion-ordered association lists (`groupByKey` below), which is
  exactly the `Object.entries` iteration order for non-integer-like string
  keys.  Maps keyed by the small integers 0‥6 (weekdays) or 0‥23 (hours)
  are iterated by `Object.entries` in ascending numeric key order, which the
  embedding reproduces by scanning `List.range 7` / `List.range 24`.
* `Array.prototype.sort` is stable with a user comparator; it is embedded
  as a stable sort (`stableSort` below) with the Boolean relation `le a b ↔
  comparator a b ≤ 0`.
* Display-only message strings (`text`, `reason`, day names) carry no
  program logic and are omitted from the records; short `title` strings are
  kept because they identify which insight a record is.
* The IndexedDB store is modelled as a list of records; `put` (upsert by
  primary key `id`) replaces in place or appends.  The wall-clock
  `updatedAt` stamp added by `DB.savePattern` is real-time metadata outside
  the model.
-/

namespace FlowDay

/- Batteries seals the `Rat` arithmetic operations `@[irreducible]`, which
blocks `decide` on concrete rational computations; re-open them for kernel
evaluation of the concrete examples below. -/
set_option allowUnsafeReducibility true
attribute [local semireducible] Rat.mul Rat.add Rat.sub Rat.inv

/-- Numeric content of an `"HH:MM"` clock string. -/
structure Time where
  hours : ℕ
  minutes : ℕ
deriving DecidableEq, Repr

/-- Embeds `timeToMinutes(time)`: `null`/`undefined`/`''` (falsy) gives 0,
otherwise `hours * 60 + minutes`. -/
def timeToMinutes : Option Time → ℚ
  | none => 0
  | some t => t.hours * 60 + t.minutes

/-- `Math.round`: round half toward plus infinity. -/
def jsRound (q : ℚ) : ℤ := ⌊q + 1/2⌋

/-- Embeds `minutesToTime(minutes)`:
`hours = Math.floor(minutes/60) % 24`, `mins = Math.round(minutes % 60)`.
The analyzers only feed nonnegative values, for which JS `%` equals the
floor-based remainder used here. -/
def minutesToTime (q : ℚ) : Time :=
  ⟨(⌊q / 60⌋ % 24).toNat, (jsRound (q - 60 * ⌊q / 60⌋)).toNat⟩

/-- Embeds `addMinutesToTime(time, minutes)`. -/
def addMinutesToTime (t : Time) (d : ℚ) : Time :=
  minutesToTime (timeToMinutes (some t) + d)

/-- Arithmetic mean of a list of rationals (0 for the empty list, matching
JS `0/0 → NaN` never being reached: all callers guard nonemptiness). -/
def listMean (l : List ℚ) : ℚ := l.sum / l.length

/-- Radicand of the source's `standardDeviation(values)`: the population
mean squared deviation, with the source's `values.length < 2 → 0` guard.
The source returns `Math.sqrt` of this; comparisons `stdDev < c` are
embedded as `varianceOf < c^2`. -/
def varianceOf (values : List ℚ) : ℚ :=
  if values.length < 2 then 0
  else ((values.map (fun v => (v - listMean values) ^ 2)).sum) / values.length

/-- Embeds `new Date(date).getDay()` for an epoch-day index (1970-01-01 was
a Thursday, weekday 4). -/
def dayOfWeek (d : ℕ) : ℕ := (d + 4) % 7

/-- Task catalog record (fields the engine reads). -/
structure Task where
  id : String
  name : String := ""
  category : String := ""
  defaultDuration : ℚ := 0
deriving DecidableEq, Repr

/-- One history record.  `startTime`/`endTime` are `none` when the source
field is absent/empty (falsy).  `actualDuration` is `none` when absent; the
source's truthiness test `!entry.actualDuration` additionally rejects 0,
which the embedding reproduces at the use site. -/
structure HistoryEntry where
  taskId : String
  date : ℕ
  startTime : Option Time := none
  endTime : Option Time := none
  status : String := "completed"
  plannedDuration : ℚ := 0
  actualDuration : Option ℚ := none
deriving DecidableEq, Repr

/-- Scheduled-instance record (used only by the gap analysis). -/
structure ScheduleItem where
  date : ℕ
  startTime : Time
  duration : ℚ
deriving DecidableEq, Repr

/-- Special period annotation `{startDate, endDate, categoryId}`. -/
structure SpecialPeriod where
  startDate : ℕ
  endDate : ℕ
  categoryId : String
deriving DecidableEq, Repr

/-- Period category `{id, name}` (color is display-only). -/
structure PeriodCategory where
  id : String
  name : String
deriving DecidableEq, Repr

/-- One ranked entry of a frequency pattern's `preferredDays`. -/
structure DayPref where
  day : ℕ
  count : ℕ
  percentage : ℚ
deriving DecidableEq, Repr

/-- Pattern record.  The source builds per-type object literals; the
embedding uses one structure with defaulted fields (unset fields keep their
default, mirroring `undefined` properties that no reader consults).
`variance` stores the square of the source's `variance` field, see the
header note on `standardDeviation`. -/
structure Pattern where
  id : String := ""
  type : String := ""
  taskId : String := ""
  taskName : String := ""
  dayOfWeek : ℕ := 0
  averageTime : Time := ⟨0, 0⟩
  variance : ℚ := 0
  sampleSize : ℕ := 0
  confidence : ℚ := 0
  averageActual : ℤ := 0
  averagePlanned : ℤ := 0
  difference : ℤ := 0
  percentDifference : ℤ := 0
  totalOccurrences : ℕ := 0
  uniqueDays : ℕ := 0
  timesPerWeek : ℚ := 0
  preferredDays : List DayPref := []
  fromTaskId : String := ""
  fromTaskName : String := ""
  toTaskId : String := ""
  toTaskName : String := ""
  count : ℕ := 0
  averageGap : Option ℤ := none
  periodCategory : Option String := none
  periodCategoryName : String := ""
deriving DecidableEq, Repr

/-- Machine-readable `action` payload carried by actionable insights. -/
structure ActionPayload where
  type : String := ""
  time : Option Time := none
  suggestedDuration : Option ℤ := none
  fromTaskId : String := ""
  toTaskId : String := ""
  gap : Option ℤ := none
  hour : Option ℕ := none
deriving DecidableEq, Repr

/-- Insight record (the display-only `text` is omitted, see header). -/
structure Insight where
  type : String
  title : String := ""
  taskId : Option String := none
  priority : ℚ := 0
  actionable : Bool := false
  action : Option ActionPayload := none
deriving DecidableEq, Repr

/-- Routine-suggestion record (display-only `reason` omitted). -/
structure Suggestion where
  taskId : String
  taskName : String
  category : String
  suggestedTime : Time
  duration : ℚ
  confidence : ℚ
deriving DecidableEq, Repr

/-! ### Insertion-ordered keyed maps

JavaScript `map[k] = map[k] || init; …push/increment…` builds an object
whose `Object.entries` iteration order (for non-integer-like string keys)
is first-insertion order.  `groupByKey` reproduces this: the group of each
key appears at the position of the key's first occurrence and collects the
elements with that key in encounter order. -/

/-- Append `x` to the group of key `k`, creating the group at the end if the
key is new. -/
def updGroup {κ α : Type} [DecidableEq κ] :
    List (κ × List α) → κ → α → List (κ × List α)
  | [], k, x => [(k, [x])]
  | (k', v) :: rest, k, x =>
    if k = k' then (k', v ++ [x]) :: rest else (k', v) :: updGroup rest k x

/-- Build the insertion-ordered grouping of `l` by `key`. -/
def groupByKey {κ α : Type} [DecidableEq κ] (key : α → κ) (l : List α) :
    List (κ × List α) :=
  l.foldl (fun m x => updGroup m (key x) x) []

/-- Association-list lookup by key (first match). -/
def findVal {κ β : Type} [DecidableEq κ] : List (κ × β) → κ → Option β
  | [], _ => none
  | (k', v) :: rest, k => if k = k' then some v else findVal rest k

/-! ### Stable sorting

`Array.prototype.sort` with a consistent comparator is a stable sort
(ECMAScript 2019), and for a total preorder the stable sorted permutation
is unique.  The embedding therefore uses a stable insertion sort (chosen
over `List.mergeSort` for its structural recursion): an element is placed
before the first resident element it satisfies `le` against, so earlier
elements stay ahead of later equal ones. -/

/-- Insert `x` before the first element `y` with `le x y`. -/
def insertLe {α : Type} (le : α → α → Bool) (x : α) : List α → List α
  | [] => [x]
  | y :: ys => if le x y then x :: y :: ys else y :: insertLe le x ys

/-- Stable sort by the Boolean relation `le` (`le a b` embeds
`comparator(a, b) <= 0`). -/
def stableSort {α : Type} (le : α → α → Bool) (l : List α) : List α :=
  l.foldr (insertLe le) []

/-! ### Pattern analyzers -/

/-- The `entry.status !== 'completed'` filter shared by the analyzers. -/
def completedOf (history : List HistoryEntry) : List HistoryEntry :=
  history.filter (fun e => e.status = "completed")

/-- Per-weekday half of `analyzeTimePatterns`: `groupBy(times, 'dayOfWeek')`
has the small-integer keys 0‥6, so `Object.entries` iterates them in
ascending order; groups of fewer than 2 samples are skipped. -/
def timeDayBlock (taskId : String) (task : Task) (times : List (Option Time × ℕ)) :
    List Pattern :=
  (List.range 7).filterMap (fun day =>
    let dayTimes := times.filter (fun t => t.2 = day)
    if 2 ≤ dayTimes.length then
      let dayMinutes := dayTimes.map (fun t => timeToMinutes t.1)
      if varianceOf dayMinutes < 45 ^ 2 then
        some { id := "time_" ++ taskId ++ "_day" ++ toString day
               type := "time_day"
               taskId := taskId
               taskName := task.name
               dayOfWeek := day
               averageTime := minutesToTime (listMean dayMinutes)
               variance := varianceOf dayMinutes
               sampleSize := dayTimes.length
               confidence := min ((dayTimes.length : ℚ) / 5) 1 }
      else none
    else none)

/-- Body of the per-task loop of `analyzeTimePatterns`: skip tasks with
fewer than 3 samples or absent from the catalog, emit a `time` pattern when
`stdDev < 60`, then the weekday patterns. -/
def timeTaskBlock (tasks : List Task) (taskId : String)
    (times : List (Option Time × ℕ)) : List Pattern :=
  if times.length < 3 then []
  else
    match tasks.find? (fun t => t.id = taskId) with
    | none => []
    | some task =>
      let timeMinutes := times.map (fun t => timeToMinutes t.1)
      (if varianceOf timeMinutes < 60 ^ 2 then
        [{ id := "time_" ++ taskId
           type := "time"
           taskId := taskId
           taskName := task.name
           averageTime := minutesToTime (listMean timeMinutes)
           variance := varianceOf timeMinutes
           sampleSize := times.length
           confidence := min ((times.length : ℚ) / 10) 1 }]
      else []) ++ timeDayBlock taskId task times

/-- The `{time: entry.startTime, dayOfWeek: new Date(entry.date).getDay()}`
projection pushed into `taskTimeMap`. -/
def timeProj (e : HistoryEntry) : Option Time × ℕ := (e.startTime, dayOfWeek e.date)

/-- Embeds `analyzeTimePatterns(history, tasks)`.  `taskTimeMap` collects,
per task in first-occurrence order, the `timeProj` projections of the
completed entries; grouping the entries first and projecting inside the
block builds the same lists. -/
def analyzeTimePatterns (history : List HistoryEntry) (tasks : List Task) :
    List Pattern :=
  (groupByKey (fun e => e.taskId) (completedOf history)).flatMap (fun g =>
    timeTaskBlock tasks g.1 (g.2.map timeProj))

/-- One `{planned, actual}` pair of `taskDurationMap`. -/
structure DurationSample where
  planned : ℚ
  actual : ℚ
deriving DecidableEq, Repr

/-- The entries feeding `taskDurationMap`: completed and with truthy
`actualDuration` (absent and 0 are both falsy in JS). -/
def durationSamples (history : List HistoryEntry) : List (String × DurationSample) :=
  history.filterMap (fun e =>
    if e.status = "completed" then
      match e.actualDuration with
      | some a => if a ≠ 0 then some (e.taskId, ⟨e.plannedDuration, a⟩) else none
      | none => none
    else none)

/-- Body of the per-task loop of `analyzeDurationPatterns`. -/
def durationBlock (tasks : List Task) (taskId : String)
    (durations : List DurationSample) : List Pattern :=
  if durations.length < 3 then []
  else
    match tasks.find? (fun t => t.id = taskId) with
    | none => []
    | some task =>
      let actualAvg := (durations.map (fun d => d.actual)).sum / durations.length
      let plannedAvg := (durations.map (fun d => d.planned)).sum / durations.length
      let difference := actualAvg - plannedAvg
      let percentDiff := difference / plannedAvg * 100
      [{ id := "duration_" ++ taskId
         type := "duration"
         taskId := taskId
         taskName := task.name
         averageActual := jsRound actualAvg
         averagePlanned := jsRound plannedAvg
         difference := jsRound difference
         percentDifference := jsRound percentDiff
         sampleSize := durations.length
         confidence := min ((durations.length : ℚ) / 10) 1 }]

/-- Embeds `analyzeDurationPatterns(history, tasks)`. -/
def analyzeDurationPatterns (history : List HistoryEntry) (tasks : List Task) :
    List Pattern :=
  (groupByKey Prod.fst (durationSamples history)).flatMap (fun g =>
    durationBlock tasks g.1 (g.2.map Prod.snd))

/-- Body of the per-task loop of `analyzeFrequencyPatterns`.  `freq.count`
is the number of completed entries collected for the task, `freq.days` a
`Set` of their dates, and `freq.weekdays` an integer-keyed count map that
`Object.entries` iterates in ascending weekday order before the stable
descending-by-count sort and `slice(0, 3)`. -/
def frequencyBlock (tasks : List Task) (totalWeeks : ℚ) (taskId : String)
    (es : List HistoryEntry) : List Pattern :=
  match tasks.find? (fun t => t.id = taskId) with
  | none => []
  | some task =>
    let count := es.length
    let weekdayCounts := (List.range 7).filterMap (fun d =>
      let c := (es.filter (fun e => dayOfWeek e.date = d)).length
      if c = 0 then none else some (d, c))
    let rankedDays := stableSort (fun a b => b.2 ≤ a.2) weekdayCounts
    let preferredDays := (rankedDays.take 3).map (fun dc =>
      ⟨dc.1, dc.2, (dc.2 : ℚ) / count * 100⟩)
    [{ id := "frequency_" ++ taskId
       type := "frequency"
       taskId := taskId
       taskName := task.name
       totalOccurrences := count
       uniqueDays := (es.map (fun e => e.date)).dedup.length
       timesPerWeek := (jsRound ((count : ℚ) / totalWeeks * 10) : ℚ) / 10
       preferredDays := preferredDays
       sampleSize := count
       confidence := min ((count : ℚ) / 15) 1 }]

/-- Embeds `analyzeFrequencyPatterns(history, tasks)`.  The gate counts the
raw history entries (`dates.length < 2`); `totalDays` is the day-span of
the whole history with `|| 1` clamping a zero span to one day. -/
def analyzeFrequencyPatterns (history : List HistoryEntry) (tasks : List Task) :
    List Pattern :=
  if history.length < 2 then []
  else
    let dates := history.map (fun e => e.date)
    let minDate := dates.min?.getD 0
    let maxDate := dates.max?.getD 0
    let totalDays := if maxDate - minDate = 0 then 1 else maxDate - minDate
    let totalWeeks := (totalDays : ℚ) / 7
    (groupByKey (fun e => e.taskId) (completedOf history)).flatMap (fun g =>
      frequencyBlock tasks totalWeeks g.1 g.2)

/-- Comparator of the sequence analyzer's history sort: by date, then by
`(startTime || '')` — a missing time compares like the empty string, i.e.
before every concrete time. -/
def histLE (a b : HistoryEntry) : Bool :=
  if a.date < b.date then true
  else if b.date < a.date then false
  else
    match a.startTime, b.startTime with
    | none, _ => true
    | some _, none => false
    | some s, some t =>
      if s.hours < t.hours then true
      else if t.hours < s.hours then false
      else s.minutes ≤ t.minutes

/-- Adjacent pairs of the sorted completed history that share a date (the
`lastEntry` walk of `analyzeSequencePatterns`). -/
def adjacentSameDay (l : List HistoryEntry) : List (HistoryEntry × HistoryEntry) :=
  (l.zip l.tail).filter (fun ab => ab.1.date = ab.2.date)

/-- Key of `sequenceMap`: the source concatenates
`` `${fromTaskId}_${toTaskId}` ``. -/
def seqKey (ab : HistoryEntry × HistoryEntry) : String :=
  ab.1.taskId ++ "_" ++ ab.2.taskId

/-- Valid gap of one transition: both boundary times known and
`0 ≤ gap < 240` minutes. -/
def transitionGap (ab : HistoryEntry × HistoryEntry) : Option ℚ :=
  match ab.1.endTime, ab.2.startTime with
  | some et, some st =>
    let gap := timeToMinutes (some st) - timeToMinutes (some et)
    if 0 ≤ gap ∧ gap < 240 then some gap else none
  | _, _ => none

/-- Body of the per-transition loop of `analyzeSequencePatterns`.  The
`fromTaskId`/`toTaskId` of a map entry are the ones recorded when the key
was first created, i.e. the first pair's.  The emitted `averageGap` is
`avgGap ? Math.round(avgGap) : null`: both an empty gap list and a mean of
exactly 0 (falsy) yield `null`. -/
def sequenceBlock (tasks : List Task) (pairs : List (HistoryEntry × HistoryEntry)) :
    List Pattern :=
  match pairs with
  | [] => []
  | p0 :: _ =>
    if pairs.length < 3 then []
    else
      match tasks.find? (fun t => t.id = p0.1.taskId),
            tasks.find? (fun t => t.id = p0.2.taskId) with
      | some fromTask, some toTask =>
        let gaps := pairs.filterMap transitionGap
        let avgGap : Option ℚ :=
          if gaps.length > 0 then some (gaps.sum / gaps.length) else none
        [{ id := "sequence_" ++ seqKey p0
           type := "sequence"
           fromTaskId := p0.1.taskId
           fromTaskName := fromTask.name
           toTaskId := p0.2.taskId
           toTaskName := toTask.name
           count := pairs.length
           averageGap :=
             match avgGap with
             | some g => if g ≠ 0 then some (jsRound g) else none
             | none => none
           sampleSize := pairs.length
           confidence := min ((pairs.length : ℚ) / 10) 1 }]
      | _, _ => []

/-- Embeds `analyzeSequencePatterns(history, tasks)`: stable sort of the
completed entries by `(date, startTime)`, same-day adjacent transitions
grouped by concatenated key, ≥3-occurrence gate, sort by count descending,
top 20. -/
def analyzeSequencePatterns (history : List HistoryEntry) (tasks : List Task) :
    List Pattern :=
  let sortedHistory := stableSort histLE (history.filter (fun e => e.status = "completed"))
  let grouped := groupByKey seqKey (adjacentSameDay sortedHistory)
  (stableSort (fun a b => b.count ≤ a.count)
    (grouped.flatMap (fun g => sequenceBlock tasks g.2))).take 20

/-- Completed/skipped tallies of one bucket of the completion analyzer.
Statuses other than `completed`/`skipped` create their own (never read)
counter in the source and change neither field. -/
structure Tally where
  completed : ℕ := 0
  skipped : ℕ := 0
deriving DecidableEq, Repr

/-- Per-task record of `analyzeCompletionPatterns`. -/
structure CompStats where
  completed : ℕ := 0
  skipped : ℕ := 0
  byHour : List (ℕ × Tally) := []
  byDay : List (ℕ × Tally) := []
deriving DecidableEq, Repr

/-- Truthy `startTime` whose hour component (`parseInt` of the part before
the colon) equals `h`. -/
def startHourIs (h : ℕ) (e : HistoryEntry) : Prop :=
  match e.startTime with
  | some t => t.hours = h
  | none => False

instance (h : ℕ) (e : HistoryEntry) : Decidable (startHourIs h e) := by
  unfold startHourIs
  exact match e.startTime with
  | some _ => inferInstance
  | none => inferInstance

/-- Tally of a bucket of history entries. -/
def tallyOf (es : List HistoryEntry) : Tally :=
  ⟨(es.filter (fun e => e.status = "completed")).length,
   (es.filter (fun e => e.status = "skipped")).length⟩

/-- Embeds `analyzeCompletionPatterns(history, tasks)`: a map keyed by
taskId (insertion order); hour buckets exist for entries with a truthy
`startTime` (keys iterated ascending 0‥23), day buckets for every entry
(keys 0‥6 ascending). -/
def analyzeCompletionPatterns (history : List HistoryEntry) :
    List (String × CompStats) :=
  (groupByKey (fun e => e.taskId) history).map (fun g =>
    (g.1,
     { completed := (g.2.filter (fun e => e.status = "completed")).length
       skipped := (g.2.filter (fun e => e.status = "skipped")).length
       byHour := (List.range 24).filterMap (fun h =>
         let hs := g.2.filter (fun e => startHourIs h e)
         if hs = [] then none else some (h, tallyOf hs))
       byDay := (List.range 7).filterMap (fun d =>
         let ds := g.2.filter (fun e => dayOfWeek e.date = d)
         if ds = [] then none else some (d, tallyOf ds)) }))

/-! ### Insight generators -/

/-- Embeds `generateTimeInsights(patterns, tasks)`. -/
def generateTimeInsights (patterns : List Pattern) (_tasks : List Task) :
    List Insight :=
  patterns.flatMap (fun p =>
    (if p.type = "time" ∧ (3/5 : ℚ) < p.confidence then
      [{ type := "pattern"
         title := "Orario abituale"
         taskId := some p.taskId
         priority := p.confidence * 5
         actionable := true
         action := some { type := "suggest_time", time := some p.averageTime } }]
    else []) ++
    (if p.type = "time_day" ∧ (7/10 : ℚ) < p.confidence then
      [{ type := "pattern"
         title := "Pattern settimanale"
         taskId := some p.taskId
         priority := p.confidence * 6
         actionable := true }]
    else []))

/-- Embeds `generateDurationInsights(patterns, tasks)`.  Both branches set
`actionable: true`; only the underestimate branch carries an `action`
payload. -/
def generateDurationInsights (patterns : List Pattern) (_tasks : List Task) :
    List Insight :=
  patterns.flatMap (fun p =>
    if 20 < |p.percentDifference| ∧ 5 ≤ p.sampleSize then
      if 0 < p.difference then
        [{ type := "optimization"
           title := "Durata sottostimata"
           taskId := some p.taskId
           priority := min ((|p.percentDifference| : ℚ) / 10) 8
           actionable := true
           action := some { type := "adjust_duration"
                            suggestedDuration := some p.averageActual } }]
      else if p.difference < -15 then
        [{ type := "optimization"
           title := "Durata sovrastimata"
           taskId := some p.taskId
           priority := min ((|p.percentDifference| : ℚ) / 15) 6
           actionable := true }]
      else []
    else [])

/-- Embeds `generateFrequencyInsights(patterns, tasks)`: requires a top
preferred day above 40% and (the emission test `if (topDays)` on the joined
string) at least one day above 25%. -/
def generateFrequencyInsights (patterns : List Pattern) (_tasks : List Task) :
    List Insight :=
  patterns.flatMap (fun p =>
    match p.preferredDays with
    | [] => []
    | d0 :: _ =>
      if 40 < d0.percentage then
        if (p.preferredDays.filter (fun d => 25 < d.percentage)) ≠ [] then
          [{ type := "pattern"
             title := "Giorni preferiti"
             taskId := some p.taskId
             priority := p.confidence * 4 }]
        else []
      else [])

/-- Embeds `generateSequenceInsights(patterns, tasks)`: the first 3
patterns with confidence above 0.5. -/
def generateSequenceInsights (patterns : List Pattern) (_tasks : List Task) :
    List Insight :=
  ((patterns.filter (fun p => (1/2 : ℚ) < p.confidence)).take 3).map (fun seq =>
    { type := "pattern"
      title := "Sequenza abituale"
      priority := seq.confidence * 5
      actionable := true
      action := some { type := "suggest_sequence"
                       fromTaskId := seq.fromTaskId
                       toTaskId := seq.toTaskId
                       gap := seq.averageGap } })

/-- Best-bucket scan shared by the completion insights: walk the buckets in
key order keeping the first strict maximum of the completion rate among
buckets with at least 2 samples (`hourRate > bestRate` with `bestRate`
starting at 0). -/
def bestBucket (buckets : List (ℕ × Tally)) : Option ℕ × ℚ :=
  buckets.foldl (fun (best : Option ℕ × ℚ) b =>
    let total : ℕ := b.2.completed + b.2.skipped
    if 2 ≤ total then
      let rate := (b.2.completed : ℚ) / (total : ℚ)
      if best.2 < rate then (some b.1, rate) else best
    else best) (none, 0)

/-- Embeds `generateCompletionInsights(completionStats, tasks)`. -/
def generateCompletionInsights (stats : List (String × CompStats))
    (tasks : List Task) : List Insight :=
  stats.flatMap (fun g =>
    let total := g.2.completed + g.2.skipped
    if total < 5 then []
    else
      match tasks.find? (fun t => t.id = g.1) with
      | none => []
      | some _task =>
        let completionRate := (g.2.completed : ℚ) / total
        (if completionRate < 1/2 ∧ 8 ≤ total then
          (match bestBucket g.2.byHour with
           | (some bestHour, bestRate) =>
             if completionRate + 1/5 < bestRate then
               [{ type := "optimization"
                  title := "Orario migliore"
                  taskId := some g.1
                  priority := 7
                  actionable := true
                  action := some { type := "suggest_better_time"
                                   hour := some bestHour } }]
             else []
           | (none, _) => []) ++
          (match bestBucket g.2.byDay with
           | (some _bestDay, bestDayRate) =>
             if completionRate + 1/4 < bestDayRate then
               [{ type := "optimization"
                  title := "Giorno migliore"
                  taskId := some g.1
                  priority := 6 }]
             else []
           | (none, _) => [])
        else []) ++
        (if 9/10 < completionRate ∧ 10 ≤ total then
          [{ type := "achievement"
             title := "Ottimo lavoro!"
             taskId := some g.1
             priority := 3 }]
        else []))

/-- Comparator of the per-day schedule sort (`startTime.localeCompare`). -/
def schedLE (a b : ScheduleItem) : Bool :=
  if a.startTime.hours < b.startTime.hours then true
  else if b.startTime.hours < a.startTime.hours then false
  else a.startTime.minutes ≤ b.startTime.minutes

/-- Embeds `analyzeScheduleGaps(schedule)`: per-date buckets (insertion
order), each stably sorted by start time; positive gaps under 480 minutes
between an item's computed end (`addMinutesToTime`, which wraps at 24 h)
and the next item's start are averaged. -/
def analyzeScheduleGaps (schedule : List ScheduleItem) : ℚ × ℕ :=
  let gaps := (groupByKey (fun i => i.date) schedule).flatMap (fun g =>
    let sorted := stableSort schedLE g.2
    (sorted.zip sorted.tail).filterMap (fun ab =>
      let prevEnd := addMinutesToTime ab.1.startTime ab.1.duration
      let gap := timeToMinutes (some ab.2.startTime) - timeToMinutes (some prevEnd)
      if 0 < gap ∧ gap < 480 then some gap else none))
  (if gaps.length > 0 then gaps.sum / gaps.length else 0, gaps.length)

/-- Embeds `analyzeProductivityByHour(history)`: completion counts per
start hour, first strict maximum in ascending hour order, reported only
when the maximum count is at least 5. -/
def analyzeProductivityByHour (history : List HistoryEntry) : Option ℕ :=
  let counts := (List.range 24).filterMap (fun h =>
    let c := (history.filter (fun e =>
      e.status = "completed" ∧ startHourIs h e)).length
    if c = 0 then none else some (h, c))
  let best := counts.foldl (fun (best : Option ℕ × ℕ) b =>
    if best.2 < b.2 then (some b.1, b.2) else best) (none, 0)
  if 5 ≤ best.2 then best.1 else none

/-- Embeds `analyzeWeekdayVsWeekend(history)` (the directional message is
display-only): significant when the completion-rate difference exceeds 0.15
with ≥10 weekday and ≥5 weekend entries. -/
def weekdayVsWeekendSignificant (history : List HistoryEntry) : Prop :=
  let weekend := history.filter (fun e =>
    dayOfWeek e.date = 0 ∨ dayOfWeek e.date = 6)
  let weekday := history.filter (fun e =>
    ¬(dayOfWeek e.date = 0 ∨ dayOfWeek e.date = 6))
  let wdRate : ℚ :=
    if weekday.length > 0 then
      ((weekday.filter (fun e => e.status = "completed")).length : ℚ) / weekday.length
    else 0
  let weRate : ℚ :=
    if weekend.length > 0 then
      ((weekend.filter (fun e => e.status = "completed")).length : ℚ) / weekend.length
    else 0
  (3/20 : ℚ) < |wdRate - weRate| ∧ 10 ≤ weekday.length ∧ 5 ≤ weekend.length

instance (history : List HistoryEntry) :
    Decidable (weekdayVsWeekendSignificant history) := by
  unfold weekdayVsWeekendSignificant
  exact inferInstance

/-- Embeds `generateOptimizationInsights(history, schedule, tasks)`. -/
def generateOptimizationInsights (history : List HistoryEntry)
    (schedule : List ScheduleItem) (_tasks : List Task) : List Insight :=
  (if 45 < (analyzeScheduleGaps schedule).1 then
    [{ type := "optimization", title := "Tempi morti", priority := 5 }]
  else []) ++
  (match analyzeProductivityByHour history with
   | some _ => [{ type := "insight", title := "Fascia più produttiva", priority := 6 }]
   | none => []) ++
  (if weekdayVsWeekendSignificant history then
    [{ type := "insight", title := "Pattern settimanale", priority := 4 }]
  else [])

/-! ### Orchestrator -/

/-- First special period containing the entry's date (source: linear scan,
first match wins). -/
def matchingPeriod (specialPeriods : List SpecialPeriod) (e : HistoryEntry) :
    Option SpecialPeriod :=
  specialPeriods.find? (fun p => p.startDate ≤ e.date ∧ e.date ≤ p.endDate)

/-- Embeds `separateHistoryByPeriods`: a single pass that appends each
entry to the normal bucket, or to the period bucket and its category's
breakdown group.  Phrased as filters plus `groupByKey`, which build the
same insertion-ordered lists. -/
def separateHistoryByPeriods (history : List HistoryEntry)
    (specialPeriods : List SpecialPeriod) :
    List HistoryEntry × List HistoryEntry × List (String × List HistoryEntry) :=
  let periodH := history.filter (fun e => (matchingPeriod specialPeriods e).isSome)
  let normalH := history.filter (fun e => (matchingPeriod specialPeriods e).isNone)
  (normalH, periodH,
   groupByKey (fun e => ((matchingPeriod specialPeriods e).map
     (fun p => p.categoryId)).getD "") periodH)

/-- State held by the external store, as read and written by `analyze()`. -/
structure AnalyzeState where
  tasks : List Task
  history : List HistoryEntry
  schedule : List ScheduleItem
  patternStore : List Pattern
  specialPeriods : List SpecialPeriod
  periodCategories : List PeriodCategory
deriving DecidableEq, Repr

/-- Return value of `analyze()`. -/
structure AnalyzeResult where
  insights : List Insight
  patterns : List Pattern
deriving DecidableEq, Repr

/-- Embeds `DB.savePattern` (IndexedDB `put`): upsert by the `id` key. -/
def savePattern (store : List Pattern) (p : Pattern) : List Pattern :=
  if store.any (fun q => q.id = p.id) then
    store.map (fun q => if q.id = p.id then p else q)
  else store ++ [p]

/-- Embeds the period-category loop of `analyze()`: for each breakdown
group with at least 3 entries, re-run the time analyzer and tag/re-key the
resulting patterns. -/
def periodPatternsOf (tasks : List Task) (periodCategories : List PeriodCategory)
    (periodBreakdown : List (String × List HistoryEntry)) : List Pattern :=
  periodBreakdown.flatMap (fun g =>
    if 3 ≤ g.2.length then
      let categoryName :=
        match periodCategories.find? (fun c => c.id = g.1) with
        | some c => if c.name = "" then "Periodo speciale" else c.name
        | none => "Periodo speciale"
      (analyzeTimePatterns g.2 tasks).map (fun p =>
        { p with periodCategory := some g.1
                 periodCategoryName := categoryName
                 id := p.id ++ "_period_" ++ g.1 })
    else [])

/-- Embeds `analyze()` as a function from store state to the returned
`{insights, patterns}` plus the updated store state.  The hard gate
(`history.length < 5`) answers with one `info` insight and the persisted
patterns; otherwise the analyzers run on the normal bucket, insights are
pooled in source push order, stably sorted by priority descending and cut
to 10, and the recomputed patterns are upserted into the store. -/
def analyzeRun (st : AnalyzeState) : AnalyzeResult × AnalyzeState :=
  if st.history.length < 5 then
    ({ insights := [{ type := "info", title := "Raccolta dati", priority := 0 }]
       patterns := st.patternStore }, st)
  else
    let sep := separateHistoryByPeriods st.history st.specialPeriods
    let normalHistory := sep.1
    let periodHistory := sep.2.1
    let timePatterns := analyzeTimePatterns normalHistory st.tasks
    let durationPatterns := analyzeDurationPatterns normalHistory st.tasks
    let frequencyPatterns := analyzeFrequencyPatterns normalHistory st.tasks
    let sequencePatterns := analyzeSequencePatterns normalHistory st.tasks
    let completionPatterns := analyzeCompletionPatterns normalHistory
    let insights :=
      generateTimeInsights timePatterns st.tasks ++
      generateDurationInsights durationPatterns st.tasks ++
      generateFrequencyInsights frequencyPatterns st.tasks ++
      generateSequenceInsights sequencePatterns st.tasks ++
      generateCompletionInsights completionPatterns st.tasks ++
      generateOptimizationInsights normalHistory st.schedule st.tasks ++
      (if periodHistory.length > 0 then
        [{ type := "info", title := "Periodi speciali", priority := 1 }]
      else [])
    let periodPatterns := periodPatternsOf st.tasks st.periodCategories sep.2.2
    let allPatterns :=
      timePatterns ++ durationPatterns ++ frequencyPatterns ++
      sequencePatterns ++ periodPatterns
    ({ insights := (stableSort (fun a b => b.priority ≤ a.priority) insights).take 10
       patterns := allPatterns },
     { st with patternStore := allPatterns.foldl savePattern st.patternStore })

/-! ### Routine suggestion generator -/

/-- Comparator of the suggestion sort: suggested time ascending
(lexicographic on the `"HH:MM"` string, i.e. on the numeric pair), ties by
confidence descending. -/
def sugLE (a b : Suggestion) : Bool :=
  if a.suggestedTime.hours < b.suggestedTime.hours then true
  else if b.suggestedTime.hours < a.suggestedTime.hours then false
  else if a.suggestedTime.minutes < b.suggestedTime.minutes then true
  else if b.suggestedTime.minutes < a.suggestedTime.minutes then false
  else b.confidence ≤ a.confidence

/-- Body of the per-frequency-pattern loop of `generateRoutineSuggestion`:
skip unless the target weekday appears in `preferredDays` with share ≥20%
and the task exists; prefer the day-specific time pattern (confidence boost
×1.2), else the general one; skip if neither exists.  An `averageTime` in
this model is never falsy (a nonempty string in the source). -/
def suggestionFor (timePatterns : List Pattern) (tasks : List Task)
    (targetDay : ℕ) (fp : Pattern) : Option Suggestion :=
  match fp.preferredDays.find? (fun d => d.day = targetDay) with
  | none => none
  | some dayPref =>
    if dayPref.percentage < 20 then none
    else
      match tasks.find? (fun t => t.id = fp.taskId) with
      | none => none
      | some task =>
        match timePatterns.find? (fun p =>
          p.type = "time_day" ∧ p.taskId = fp.taskId ∧ p.dayOfWeek = targetDay) with
        | some dtp =>
          some { taskId := task.id
                 taskName := task.name
                 category := task.category
                 suggestedTime := dtp.averageTime
                 duration := task.defaultDuration
                 confidence := fp.confidence * (6/5) }
        | none =>
          match timePatterns.find? (fun p =>
            p.type = "time" ∧ p.taskId = fp.taskId) with
          | some gtp =>
            some { taskId := task.id
                   taskName := task.name
                   category := task.category
                   suggestedTime := gtp.averageTime
                   duration := task.defaultDuration
                   confidence := fp.confidence * 1 }
          | none => none

/-- Embeds `generateRoutineSuggestion(dayOrDate, tasks)` applied to a
weekday number, with the persisted pattern list passed explicitly (the
source loads it from the store). -/
def generateRoutineSuggestion (patterns : List Pattern) (tasks : List Task)
    (targetDay : ℕ) : List Suggestion :=
  let timePatterns := patterns.filter (fun p =>
    p.type = "time" ∨ p.type = "time_day")
  let frequencyPatterns := patterns.filter (fun p => p.type = "frequency")
  stableSort sugLE
    (frequencyPatterns.filterMap (suggestionFor timePatterns tasks targetDay))

/-! ### Concrete evaluation inputs

Small inputs used by counterexamples, bug demonstrations and witnesses. -/

/-- Pattern averaging 40 actual vs 60 planned minutes over 5 samples
(33% overestimate). -/
def overestimatePattern : Pattern :=
  { id := "duration_t"
    type := "duration"
    taskId := "t"
    taskName := "T"
    averageActual := 40
    averagePlanned := 60
    difference := -20
    percentDifference := -33
    sampleSize := 5
    confidence := 1/2 }

/-- Two completed runs of task `a` on the same date. -/
def sameDayHistory : List HistoryEntry :=
  [ { taskId := "a", date := 10, startTime := some ⟨8, 0⟩ },
    { taskId := "a", date := 10, startTime := some ⟨9, 0⟩ } ]

def sameDayTasks : List Task := [{ id := "a", name := "A" }]

/-- Three days on which task `A` (08:00–09:00) is immediately followed by
task `B` (09:00–09:30): the transition `A→B` occurs 3 times and every
collected gap is 0 minutes. -/
def zeroGapHistory : List HistoryEntry :=
  [ { taskId := "A", date := 0, startTime := some ⟨8, 0⟩, endTime := some ⟨9, 0⟩ },
    { taskId := "B", date := 0, startTime := some ⟨9, 0⟩, endTime := some ⟨9, 30⟩ },
    { taskId := "A", date := 1, startTime := some ⟨8, 0⟩, endTime := some ⟨9, 0⟩ },
    { taskId := "B", date := 1, startTime := some ⟨9, 0⟩, endTime := some ⟨9, 30⟩ },
    { taskId := "A", date := 2, startTime := some ⟨8, 0⟩, endTime := some ⟨9, 0⟩ },
    { taskId := "B", date := 2, startTime := some ⟨9, 0⟩, endTime := some ⟨9, 30⟩ } ]

def zeroGapTasks : List Task := [{ id := "A", name := "A" }, { id := "B", name := "B" }]

/-- Completions of task `t` at 01:59, 02:00 and 02:00 on consecutive days
(three distinct weekdays): the mean start is 359/3 minutes, whose minute
component 59.67 rounds to 60. -/
def roundingHistory : List HistoryEntry :=
  [ { taskId := "t", date := 0, startTime := some ⟨1, 59⟩ },
    { taskId := "t", date := 1, startTime := some ⟨2, 0⟩ },
    { taskId := "t", date := 2, startTime := some ⟨2, 0⟩ } ]

def roundingTasks : List Task := [{ id := "t", name := "T" }]

/-- Two completions of task `t` one week apart (same weekday), at 09:00 and
09:10: the weekday group has 2 samples with stdDev 5 < 45, but the task has
fewer than 3 samples overall. -/
def twoSampleHistory : List HistoryEntry :=
  [ { taskId := "t", date := 0, startTime := some ⟨9, 0⟩ },
    { taskId := "t", date := 7, startTime := some ⟨9, 10⟩ } ]

/-- Three completions of task `t` at 09:00, 09:05, 09:10 on three distinct
weekdays: emits exactly one `time` pattern. -/
def threeSampleHistory : List HistoryEntry :=
  [ { taskId := "t", date := 0, startTime := some ⟨9, 0⟩ },
    { taskId := "t", date := 1, startTime := some ⟨9, 5⟩ },
    { taskId := "t", date := 2, startTime := some ⟨9, 10⟩ } ]

/-- A persisted-store state below the 5-entry gate, with a nonempty pattern
store. -/
def gateState : AnalyzeState :=
  { tasks := roundingTasks
    history := roundingHistory
    schedule := []
    patternStore := [{ id := "time_old", type := "time", taskId := "old" }]
    specialPeriods := []
    periodCategories := [] }

/-- A state above the gate (5 completions of task `t`). -/
def richState : AnalyzeState :=
  { tasks := roundingTasks
    history :=
      [ { taskId := "t", date := 0, startTime := some ⟨9, 0⟩ },
        { taskId := "t", date := 1, startTime := some ⟨9, 5⟩ },
        { taskId := "t", date := 2, startTime := some ⟨9, 10⟩ },
        { taskId := "t", date := 3, startTime := some ⟨9, 0⟩ },
        { taskId := "t", date := 4, startTime := some ⟨9, 5⟩ } ]
    schedule := []
    patternStore := []
    specialPeriods := []
    periodCategories := [] }

/-- 26 tasks `T0`…`T25`. -/
def seqCapTasks : List Task :=
  (List.range 26).map (fun i => { id := "T" ++ toString i, name := "T" })

/-- Three days, each running `T0, T1, …, T25` back to back: 25 distinct
transitions `Ti→Ti+1`, each occurring 3 times. -/
def seqCapHistory : List HistoryEntry :=
  (List.range 3).flatMap (fun d =>
    (List.range 26).map (fun i =>
      { taskId := "T" ++ toString i
        date := d
        startTime := some ⟨i / 2, (i % 2) * 30⟩ }))

/-- Transition `A→B` repeated 3 times (for the sequence witness). -/
def seqWitnessHistory : List HistoryEntry :=
  [ { taskId := "A", date := 0, startTime := some ⟨8, 0⟩ },
    { taskId := "B", date := 0, startTime := some ⟨10, 0⟩ },
    { taskId := "A", date := 1, startTime := some ⟨8, 0⟩ },
    { taskId := "B", date := 1, startTime := some ⟨10, 0⟩ },
    { taskId := "A", date := 2, startTime := some ⟨8, 0⟩ },
    { taskId := "B", date := 2, startTime := some ⟨10, 0⟩ } ]

/-- The `time` pattern the analyzer emits for `threeSampleHistory`. -/
def timeSamplePattern : Pattern :=
  { id := "time_t"
    type := "time"
    taskId := "t"
    taskName := "T"
    averageTime := ⟨9, 5⟩
    variance := 50/3
    sampleSize := 3
    confidence := 3/10 }

/-- The `sequence` pattern the analyzer emits for `seqWitnessHistory`. -/
def seqWitnessPattern : Pattern :=
  { id := "sequence_A_B"
    type := "sequence"
    fromTaskId := "A"
    fromTaskName := "A"
    toTaskId := "B"
    toTaskName := "B"
    count := 3
    averageGap := none
    sampleSize := 3
    confidence := 3/10 }

/-- Frequency pattern for task `t` with weekday 2 at 30% share. -/
def routineFreqPattern : Pattern :=
  { id := "frequency_t"
    type := "frequency"
    taskId := "t"
    taskName := "T"
    totalOccurrences := 10
    preferredDays := [⟨2, 3, 30⟩]
    sampleSize := 10
    confidence := 2/3 }

/-- General `time` pattern for task `t` at 07:30 (no `time_day` pattern). -/
def routineTimePattern : Pattern :=
  { id := "time_t"
    type := "time"
    taskId := "t"
    taskName := "T"
    averageTime := ⟨7, 30⟩
    sampleSize := 6
    confidence := 3/5 }

/-! ### Lemmas on the sorting and grouping machinery -/

theorem mem_insertLe {α : Type} (le : α → α → Bool) (x : α) (l : List α) (y : α) :
    y ∈ insertLe le x l ↔ y = x ∨ y ∈ l := by
  induction l with
  | nil => simp [insertLe]
  | cons z zs ih =>
    simp only [insertLe]
    split
    · simp [List.mem_cons]
    · simp only [List.mem_cons, ih]
      tauto

theorem length_insertLe {α : Type} (le : α → α → Bool) (x : α) (l : List α) :
    (insertLe le x l).length = l.length + 1 := by
  induction l with
  | nil => simp [insertLe]
  | cons z zs ih =>
    simp only [insertLe]
    split <;> simp [ih]

theorem perm_insertLe {α : Type} (le : α → α → Bool) (x : α) (l : List α) :
    (insertLe le x l).Perm (x :: l) := by
  induction l with
  | nil => simp [insertLe]
  | cons z zs ih =>
    simp only [insertLe]
    split
    · exact List.Perm.refl _
    · exact (List.Perm.cons z ih).trans (List.Perm.swap x z zs)

theorem mem_stableSort {α : Type} (le : α → α → Bool) (l : List α) (y : α) :
    y ∈ stableSort le l ↔ y ∈ l := by
  induction l with
  | nil => simp [stableSort]
  | cons z zs ih =>
    simp only [stableSort, List.foldr_cons] at *
    rw [mem_insertLe, ih, List.mem_cons]

theorem length_stableSort {α : Type} (le : α → α → Bool) (l : List α) :
    (stableSort le l).length = l.length := by
  induction l with
  | nil => rfl
  | cons z zs ih =>
    simp only [stableSort, List.foldr_cons] at *
    rw [length_insertLe, ih, List.length_cons]

theorem perm_stableSort {α : Type} (le : α → α → Bool) (l : List α) :
    (stableSort le l).Perm l := by
  induction l with
  | nil => exact List.Perm.refl _
  | cons z zs ih =>
    simp only [stableSort, List.foldr_cons] at *
    exact (perm_insertLe le z _).trans (List.Perm.cons z ih)

theorem pairwise_insertLe {α : Type} {le : α → α → Bool}
    (htrans : ∀ a b c, le a b = true → le b c = true → le a c = true)
    (htot : ∀ a b, le a b = true ∨ le b a = true) (x : α) {l : List α}
    (hl : l.Pairwise (fun a b => le a b = true)) :
    (insertLe le x l).Pairwise (fun a b => le a b = true) := by
  induction l with
  | nil => simp [insertLe]
  | cons z zs ih =>
    rw [List.pairwise_cons] at hl
    simp only [insertLe]
    split
    · rename_i hxz
      refine List.pairwise_cons.2 ⟨?_, List.pairwise_cons.2 hl⟩
      intro b hb
      rcases List.mem_cons.1 hb with hb | hb
      · exact hb ▸ hxz
      · exact htrans x z b hxz (hl.1 b hb)
    · rename_i hxz
      refine List.pairwise_cons.2 ⟨?_, ih hl.2⟩
      intro b hb
      rcases (mem_insertLe le x zs b).1 hb with hb | hb
      · rw [hb]
        rcases htot x z with h | h
        · exact absurd h hxz
        · exact h
      · exact hl.1 b hb

theorem pairwise_stableSort {α : Type} (le : α → α → Bool)
    (htrans : ∀ a b c, le a b = true → le b c = true → le a c = true)
    (htot : ∀ a b, le a b = true ∨ le b a = true) (l : List α) :
    (stableSort le l).Pairwise (fun a b => le a b = true) := by
  induction l with
  | nil => simp [stableSort]
  | cons z zs ih =>
    simp only [stableSort, List.foldr_cons] at *
    exact pairwise_insertLe htrans htot z ih

theorem findVal_updGroup {κ α : Type} [DecidableEq κ]
    (m : List (κ × List α)) (k k' : κ) (x : α) :
    findVal (updGroup m k' x) k =
      if k = k' then some (((findVal m k').getD []) ++ [x]) else findVal m k := by
  induction m with
  | nil => by_cases h : k = k' <;> simp [updGroup, findVal, h]
  | cons p rest ih =>
    obtain ⟨k₀, v⟩ := p
    by_cases h1 : k' = k₀
    · subst h1
      by_cases h2 : k = k' <;> simp [updGroup, findVal, h2]
    · by_cases h2 : k = k₀
      · subst h2
        simp [updGroup, findVal, h1, Ne.symm h1]
      · simp [updGroup, findVal, h1, h2, ih]

theorem findVal_foldl_updGroup {κ α : Type} [DecidableEq κ] (key : α → κ)
    (l : List α) (m : List (κ × List α)) (k : κ) :
    findVal (l.foldl (fun m x => updGroup m (key x) x) m) k =
      match findVal m k with
      | some v => some (v ++ l.filter (fun x => key x = k))
      | none =>
        match l.filter (fun x => key x = k) with
        | [] => none
        | a :: as => some (a :: as) := by
  induction l generalizing m with
  | nil =>
    cases h : findVal m k <;> simp [h]
  | cons x xs ih =>
    rw [List.foldl_cons, ih, findVal_updGroup]
    by_cases hk : k = key x
    · subst hk
      cases h : findVal m (key x) <;>
        simp [h, List.filter_cons, Option.getD]
    · have hk' : ¬ (key x = k) := fun h => hk h.symm
      cases h : findVal m k <;>
        simp [h, hk, List.filter_cons, hk']

theorem findVal_groupByKey {κ α : Type} [DecidableEq κ] (key : α → κ)
    (l : List α) (k : κ) :
    findVal (groupByKey key l) k =
      match l.filter (fun x => key x = k) with
      | [] => none
      | a :: as => some (a :: as) := by
  have := findVal_foldl_updGroup key l [] k
  simpa [groupByKey, findVal] using this

theorem keys_updGroup {κ α : Type} [DecidableEq κ]
    (m : List (κ × List α)) (k : κ) (x : α) :
    (updGroup m k x).map Prod.fst =
      if k ∈ m.map Prod.fst then m.map Prod.fst else m.map Prod.fst ++ [k] := by
  induction m with
  | nil => simp [updGroup]
  | cons p rest ih =>
    obtain ⟨k₀, v⟩ := p
    by_cases h : k = k₀
    · subst h
      simp [updGroup]
    · by_cases hm : k ∈ rest.map Prod.fst <;>
        simp [updGroup, h, ih, hm]

theorem nodup_keys_foldl_updGroup {κ α : Type} [DecidableEq κ] (key : α → κ)
    (l : List α) (m : List (κ × List α))
    (hm : (m.map Prod.fst).Nodup) :
    ((l.foldl (fun m x => updGroup m (key x) x) m).map Prod.fst).Nodup := by
  induction l generalizing m with
  | nil => exact hm
  | cons x xs ih =>
    rw [List.foldl_cons]
    refine ih _ ?_
    rw [keys_updGroup]
    split
    · exact hm
    · rename_i hmem
      refine List.Nodup.append hm (List.nodup_singleton _) ?_
      intro a ha hb
      rw [List.mem_singleton] at hb
      subst hb
      exact hmem ha

theorem nodup_keys_groupByKey {κ α : Type} [DecidableEq κ] (key : α → κ)
    (l : List α) : ((groupByKey key l).map Prod.fst).Nodup :=
  nodup_keys_foldl_updGroup key l [] (by simp)

theorem findVal_eq_some_of_mem {κ β : Type} [DecidableEq κ]
    {m : List (κ × β)} {k : κ} {v : β}
    (hn : (m.map Prod.fst).Nodup) (h : (k, v) ∈ m) : findVal m k = some v := by
  induction m with
  | nil => cases h
  | cons p rest ih =>
    obtain ⟨k₀, v₀⟩ := p
    have hn2 : (k₀ :: rest.map Prod.fst).Nodup := by simpa using hn
    have hk₀ : k₀ ∉ rest.map Prod.fst := (List.nodup_cons.1 hn2).1
    have hrest : (rest.map Prod.fst).Nodup := (List.nodup_cons.1 hn2).2
    rcases List.mem_cons.1 h with heq | hmem
    · cases heq
      simp [findVal]
    · have hk : k ≠ k₀ := by
        rintro rfl
        exact hk₀ (List.mem_map_of_mem Prod.fst hmem)
      simp only [findVal, if_neg hk]
      exact ih hrest hmem

theorem mem_of_findVal_eq_some {κ β : Type} [DecidableEq κ]
    {m : List (κ × β)} {k : κ} {v : β} (h : findVal m k = some v) : (k, v) ∈ m := by
  induction m with
  | nil => simp [findVal] at h
  | cons p rest ih =>
    obtain ⟨k₀, v₀⟩ := p
    by_cases hk : k = k₀
    · subst hk
      simp only [findVal, if_true, Option.some.injEq, reduceIte] at h
      subst h
      exact List.mem_cons_self _ _
    · simp only [findVal, if_neg hk] at h
      exact List.mem_cons_of_mem _ (ih h)

theorem mem_groupByKey {κ α : Type} [DecidableEq κ] {key : α → κ}
    {l : List α} {k : κ} {v : List α} :
    (k, v) ∈ groupByKey key l ↔
      v = l.filter (fun x => key x = k) ∧ v ≠ [] := by
  constructor
  · intro h
    have hv := findVal_eq_some_of_mem (nodup_keys_groupByKey key l) h
    rw [findVal_groupByKey] at hv
    split at hv
    · cases hv
    · rename_i a as heq
      have hv' : v = a :: as := (Option.some.injEq .. ▸ hv).symm
      exact ⟨hv'.trans heq.symm, by simp [hv']⟩
  · rintro ⟨rfl, hne⟩
    apply mem_of_findVal_eq_some
    rw [findVal_groupByKey]
    cases heq : l.filter (fun x => key x = k) with
    | nil => exact absurd heq hne
    | cons a as => simp

/-! ### Analyzer soundness lemmas -/

theorem conf_min_bounds (n : ℕ) (k : ℚ) (hk : 0 < k) :
    0 ≤ min ((n : ℚ) / k) 1 ∧ min ((n : ℚ) / k) 1 ≤ 1 :=
  ⟨le_min (div_nonneg (Nat.cast_nonneg n) hk.le) zero_le_one, min_le_right _ _⟩

theorem timeDayBlock_sound {taskId : String} {task : Task}
    {times : List (Option Time × ℕ)} {p : Pattern}
    (hp : p ∈ timeDayBlock taskId task times) :
    ∃ day, day < 7 ∧
      2 ≤ (times.filter (fun t => t.2 = day)).length ∧
      varianceOf ((times.filter (fun t => t.2 = day)).map
        (fun t => timeToMinutes t.1)) < 45 ^ 2 ∧
      p = { id := "time_" ++ taskId ++ "_day" ++ toString day
            type := "time_day"
            taskId := taskId
            taskName := task.name
            dayOfWeek := day
            averageTime := minutesToTime (listMean
              ((times.filter (fun t => t.2 = day)).map (fun t => timeToMinutes t.1)))
            variance := varianceOf ((times.filter (fun t => t.2 = day)).map
              (fun t => timeToMinutes t.1))
            sampleSize := (times.filter (fun t => t.2 = day)).length
            confidence :=
              min (((times.filter (fun t => t.2 = day)).length : ℚ) / 5) 1 } := by
  simp only [timeDayBlock, List.mem_filterMap, List.mem_range] at hp
  obtain ⟨day, hday, heq⟩ := hp
  refine ⟨day, hday, ?_⟩
  split_ifs at heq with h1 h2
  exact ⟨h1, h2, (Option.some.injEq .. ▸ heq).symm⟩

theorem timeDayBlock_complete (taskId : String) (task : Task)
    {times : List (Option Time × ℕ)} {day : ℕ} (hday : day < 7)
    (hlen : 2 ≤ (times.filter (fun t => t.2 = day)).length)
    (hvar : varianceOf ((times.filter (fun t => t.2 = day)).map
      (fun t => timeToMinutes t.1)) < 45 ^ 2) :
    { id := "time_" ++ taskId ++ "_day" ++ toString day
      type := "time_day"
      taskId := taskId
      taskName := task.name
      dayOfWeek := day
      averageTime := minutesToTime (listMean
        ((times.filter (fun t => t.2 = day)).map (fun t => timeToMinutes t.1)))
      variance := varianceOf ((times.filter (fun t => t.2 = day)).map
        (fun t => timeToMinutes t.1))
      sampleSize := (times.filter (fun t => t.2 = day)).length
      confidence := min (((times.filter (fun t => t.2 = day)).length : ℚ) / 5) 1
      : Pattern } ∈ timeDayBlock taskId task times := by
  simp only [timeDayBlock, List.mem_filterMap, List.mem_range]
  exact ⟨day, hday, by rw [if_pos hlen, if_pos hvar]⟩

theorem timeTaskBlock_sound {tasks : List Task} {k : String}
    {times : List (Option Time × ℕ)} {p : Pattern}
    (hp : p ∈ timeTaskBlock tasks k times) :
    3 ≤ times.length ∧
    ∃ task, tasks.find? (fun t => t.id = k) = some task ∧
      ((varianceOf (times.map (fun t => timeToMinutes t.1)) < 60 ^ 2 ∧
        p = { id := "time_" ++ k
              type := "time"
              taskId := k
              taskName := task.name
              averageTime := minutesToTime (listMean
                (times.map (fun t => timeToMinutes t.1)))
              variance := varianceOf (times.map (fun t => timeToMinutes t.1))
              sampleSize := times.length
              confidence := min ((times.length : ℚ) / 10) 1 }) ∨
       p ∈ timeDayBlock k task times) := by
  rw [timeTaskBlock] at hp
  split at hp
  · cases hp
  · rename_i hlen
    rcases hfind : tasks.find? (fun t => t.id = k) with _ | task <;>
      rw [hfind] at hp
    · cases hp
    · refine ⟨by omega, task, hfind, ?_⟩
      rcases List.mem_append.1 hp with h1 | h2
      · split at h1
        · rename_i hvar
          exact Or.inl ⟨hvar, List.mem_singleton.1 h1⟩
        · cases h1
      · exact Or.inr h2

theorem timeTaskBlock_time_complete {tasks : List Task} {k : String}
    (times : List (Option Time × ℕ)) {task : Task}
    (hlen : 3 ≤ times.length)
    (hfind : tasks.find? (fun t => t.id = k) = some task)
    (hvar : varianceOf (times.map (fun t => timeToMinutes t.1)) < 60 ^ 2) :
    ∃ p ∈ timeTaskBlock tasks k times, p.type = "time" ∧ p.taskId = k := by
  refine ⟨{ id := "time_" ++ k
            type := "time"
            taskId := k
            taskName := task.name
            averageTime := minutesToTime (listMean
              (times.map (fun t => timeToMinutes t.1)))
            variance := varianceOf (times.map (fun t => timeToMinutes t.1))
            sampleSize := times.length
            confidence := min ((times.length : ℚ) / 10) 1 }, ?_, rfl, rfl⟩
  rw [timeTaskBlock, if_neg (by omega), hfind]
  exact List.mem_append.2 (Or.inl (by rw [if_pos hvar]; exact List.mem_singleton.2 rfl))

theorem timeTaskBlock_day_complete {tasks : List Task} {k : String}
    (times : List (Option Time × ℕ)) {task : Task} {day : ℕ}
    (hlen : 3 ≤ times.length)
    (hfind : tasks.find? (fun t => t.id = k) = some task) (hday : day < 7)
    (hglen : 2 ≤ (times.filter (fun t => t.2 = day)).length)
    (hvar : varianceOf ((times.filter (fun t => t.2 = day)).map
      (fun t => timeToMinutes t.1)) < 45 ^ 2) :
    ∃ p ∈ timeTaskBlock tasks k times,
      p.type = "time_day" ∧ p.taskId = k ∧ p.dayOfWeek = day := by
  have hp := timeDayBlock_complete k task hday hglen hvar
  refine ⟨{ id := "time_" ++ k ++ "_day" ++ toString day
            type := "time_day"
            taskId := k
            taskName := task.name
            dayOfWeek := day
            averageTime := minutesToTime (listMean
              ((times.filter (fun t => t.2 = day)).map (fun t => timeToMinutes t.1)))
            variance := varianceOf ((times.filter (fun t => t.2 = day)).map
              (fun t => timeToMinutes t.1))
            sampleSize := (times.filter (fun t => t.2 = day)).length
            confidence :=
              min (((times.filter (fun t => t.2 = day)).length : ℚ) / 5) 1 },
          ?_, rfl, rfl, rfl⟩
  rw [timeTaskBlock, if_neg (show ¬ times.length < 3 by omega), hfind]
  exact List.mem_append.2 (Or.inr hp)

theorem analyzeTimePatterns_sound {history : List HistoryEntry}
    {tasks : List Task} {p : Pattern}
    (hp : p ∈ analyzeTimePatterns history tasks) :
    ((p.type = "time" ∧ p.confidence = min ((p.sampleSize : ℚ) / 10) 1) ∨
     (p.type = "time_day" ∧ p.confidence = min ((p.sampleSize : ℚ) / 5) 1)) ∧
    0 ≤ p.confidence ∧ p.confidence ≤ 1 := by
  rw [analyzeTimePatterns, List.mem_flatMap] at hp
  obtain ⟨g, _, hpg⟩ := hp
  obtain ⟨_, task, _, hcases⟩ := timeTaskBlock_sound hpg
  rcases hcases with ⟨_, rfl⟩ | hday
  · exact ⟨Or.inl ⟨rfl, rfl⟩, conf_min_bounds _ 10 (by norm_num)⟩
  · obtain ⟨day, _, _, _, rfl⟩ := timeDayBlock_sound hday
    exact ⟨Or.inr ⟨rfl, rfl⟩, conf_min_bounds _ 5 (by norm_num)⟩

theorem timeProj_minutes (l : List HistoryEntry) :
    (l.map timeProj).map (fun x => timeToMinutes x.1) =
      l.map (fun e => timeToMinutes e.startTime) := by
  rw [List.map_map]
  rfl

theorem timeProj_day_filter (l : List HistoryEntry) (d : ℕ) :
    (l.map timeProj).filter (fun x => x.2 = d) =
      (l.filter (fun e => dayOfWeek e.date = d)).map timeProj := by
  rw [List.filter_map]
  rfl

theorem analyzeTimePatterns_mem_iff {h : List HistoryEntry} {tasks : List Task}
    {p : Pattern} :
    p ∈ analyzeTimePatterns h tasks ↔
      ∃ t, (completedOf h).filter (fun e => e.taskId = t) ≠ [] ∧
        p ∈ timeTaskBlock tasks t
          (((completedOf h).filter (fun e => e.taskId = t)).map timeProj) := by
  rw [analyzeTimePatterns, List.mem_flatMap]
  constructor
  · rintro ⟨g, hg, hp⟩
    obtain ⟨hv, hne⟩ := mem_groupByKey.1 hg
    refine ⟨g.1, ?_, ?_⟩
    · exact hv ▸ hne
    · exact hv ▸ hp
  · rintro ⟨t, hne, hp⟩
    exact ⟨(t, (completedOf h).filter (fun e => e.taskId = t)),
      mem_groupByKey.2 ⟨rfl, hne⟩, hp⟩

theorem durationBlock_sound {tasks : List Task} {k : String}
    {ds : List DurationSample} {p : Pattern}
    (hp : p ∈ durationBlock tasks k ds) :
    3 ≤ ds.length ∧ p.type = "duration" ∧ p.taskId = k ∧
    p.sampleSize = ds.length ∧
    p.confidence = min ((ds.length : ℚ) / 10) 1 := by
  rw [durationBlock] at hp
  split at hp
  · cases hp
  · rename_i hlen
    rcases hfind : tasks.find? (fun t => t.id = k) with _ | task <;>
      rw [hfind] at hp
    · cases hp
    · cases List.mem_singleton.1 hp
      exact ⟨by omega, rfl, rfl, rfl, rfl⟩

theorem analyzeDurationPatterns_sound {history : List HistoryEntry}
    {tasks : List Task} {p : Pattern}
    (hp : p ∈ analyzeDurationPatterns history tasks) :
    p.type = "duration" ∧ p.confidence = min ((p.sampleSize : ℚ) / 10) 1 ∧
    0 ≤ p.confidence ∧ p.confidence ≤ 1 := by
  rw [analyzeDurationPatterns, List.mem_flatMap] at hp
  obtain ⟨g, _, hpg⟩ := hp
  obtain ⟨_, hty, _, hss, hconf⟩ := durationBlock_sound hpg
  exact ⟨hty, hss ▸ hconf, hconf ▸ conf_min_bounds _ 10 (by norm_num)⟩

theorem frequencyBlock_sound {tasks : List Task} {w : ℚ} {k : String}
    {es : List HistoryEntry} {p : Pattern}
    (hp : p ∈ frequencyBlock tasks w k es) :
    p.type = "frequency" ∧ p.taskId = k ∧ p.sampleSize = es.length ∧
    p.confidence = min ((es.length : ℚ) / 15) 1 := by
  rw [frequencyBlock] at hp
  rcases hfind : tasks.find? (fun t => t.id = k) with _ | task <;>
    rw [hfind] at hp
  · cases hp
  · cases List.mem_singleton.1 hp
    exact ⟨rfl, rfl, rfl, rfl⟩

theorem analyzeFrequencyPatterns_sound {history : List HistoryEntry}
    {tasks : List Task} {p : Pattern}
    (hp : p ∈ analyzeFrequencyPatterns history tasks) :
    p.type = "frequency" ∧ p.confidence = min ((p.sampleSize : ℚ) / 15) 1 ∧
    0 ≤ p.confidence ∧ p.confidence ≤ 1 := by
  rw [analyzeFrequencyPatterns] at hp
  split at hp
  · cases hp
  · rw [List.mem_flatMap] at hp
    obtain ⟨g, _, hpg⟩ := hp
    obtain ⟨hty, _, hss, hconf⟩ := frequencyBlock_sound hpg
    exact ⟨hty, hss ▸ hconf, hconf ▸ conf_min_bounds _ 15 (by norm_num)⟩

theorem sequenceBlock_sound {tasks : List Task}
    {pairs : List (HistoryEntry × HistoryEntry)} {p : Pattern}
    (hp : p ∈ sequenceBlock tasks pairs) :
    3 ≤ pairs.length ∧ p.type = "sequence" ∧ p.count = pairs.length ∧
    p.sampleSize = pairs.length ∧
    p.confidence = min ((pairs.length : ℚ) / 10) 1 ∧
    (∃ a ∈ tasks, a.id = p.fromTaskId) ∧ (∃ b ∈ tasks, b.id = p.toTaskId) := by
  rcases pairs with _ | ⟨p0, rest⟩
  · cases hp
  · rw [sequenceBlock] at hp
    split at hp
    · cases hp
    · rename_i hlen
      rcases hfrom : tasks.find? (fun t => t.id = p0.1.taskId) with _ | fromTask <;>
        rw [hfrom] at hp
      · cases hp
      · rcases hto : tasks.find? (fun t => t.id = p0.2.taskId) with _ | toTask <;>
          rw [hto] at hp
        · cases hp
        · cases List.mem_singleton.1 hp
          refine ⟨by simpa using Nat.le_of_not_lt hlen, rfl, rfl, rfl, rfl, ?_, ?_⟩
          · exact ⟨fromTask, List.mem_of_find?_eq_some hfrom,
              by simpa using List.find?_some hfrom⟩
          · exact ⟨toTask, List.mem_of_find?_eq_some hto,
              by simpa using List.find?_some hto⟩

theorem analyzeSequencePatterns_sound {history : List HistoryEntry}
    {tasks : List Task} {p : Pattern}
    (hp : p ∈ analyzeSequencePatterns history tasks) :
    3 ≤ p.count ∧ p.type = "sequence" ∧ p.sampleSize = p.count ∧
    p.confidence = min ((p.sampleSize : ℚ) / 10) 1 ∧
    0 ≤ p.confidence ∧ p.confidence ≤ 1 ∧
    (∃ a ∈ tasks, a.id = p.fromTaskId) ∧ (∃ b ∈ tasks, b.id = p.toTaskId) := by
  rw [analyzeSequencePatterns] at hp
  have hp2 := (mem_stableSort _ _ _).1 (List.mem_of_mem_take hp)
  rw [List.mem_flatMap] at hp2
  obtain ⟨g, _, hpg⟩ := hp2
  obtain ⟨hlen, hty, hcnt, hss, hconf, hfrom, hto⟩ := sequenceBlock_sound hpg
  refine ⟨hcnt ▸ hlen, hty, hss.trans hcnt.symm, ?_, ?_, ?_, hfrom, hto⟩
  · rw [hss, hconf]
  · exact hconf ▸ (conf_min_bounds _ 10 (by norm_num)).1
  · exact hconf ▸ (conf_min_bounds _ 10 (by norm_num)).2

theorem periodPatternsOf_sound {tasks : List Task}
    {cats : List PeriodCategory} {bd : List (String × List HistoryEntry)}
    {p : Pattern} (hp : p ∈ periodPatternsOf tasks cats bd) :
    ∃ q g, g ∈ bd ∧ q ∈ analyzeTimePatterns g.2 tasks ∧
      p.type = q.type ∧ p.confidence = q.confidence ∧
      p.sampleSize = q.sampleSize := by
  rw [periodPatternsOf, List.mem_flatMap] at hp
  obtain ⟨g, hg, hpg⟩ := hp
  split at hpg
  · rw [List.mem_map] at hpg
    obtain ⟨q, hq, rfl⟩ := hpg
    exact ⟨q, g, hg, hq, rfl, rfl, rfl⟩
  · cases hpg

/-- C5: every pattern emitted by any analyzer — time, time_day, duration,
frequency, sequence, and the per-period time re-runs inside `analyze()` —
carries `confidence = min(sampleSize/k, 1)` for its type's constant k
(10, 5, 10, 15, 10 respectively), which lies in [0, 1]. -/
theorem claim5_confidence_bounds :
    (∀ h t p, p ∈ analyzeTimePatterns h t →
      ((p.type = "time" ∧ p.confidence = min ((p.sampleSize : ℚ) / 10) 1) ∨
       (p.type = "time_day" ∧ p.confidence = min ((p.sampleSize : ℚ) / 5) 1)) ∧
      0 ≤ p.confidence ∧ p.confidence ≤ 1) ∧
    (∀ h t p, p ∈ analyzeDurationPatterns h t →
      (p.type = "duration" ∧ p.confidence = min ((p.sampleSize : ℚ) / 10) 1) ∧
      0 ≤ p.confidence ∧ p.confidence ≤ 1) ∧
    (∀ h t p, p ∈ analyzeFrequencyPatterns h t →
      (p.type = "frequency" ∧ p.confidence = min ((p.sampleSize : ℚ) / 15) 1) ∧
      0 ≤ p.confidence ∧ p.confidence ≤ 1) ∧
    (∀ h t p, p ∈ analyzeSequencePatterns h t →
      (p.type = "sequence" ∧ p.confidence = min ((p.sampleSize : ℚ) / 10) 1) ∧
      0 ≤ p.confidence ∧ p.confidence ≤ 1) ∧
    (∀ st p, 5 ≤ st.history.length → p ∈ (analyzeRun st).1.patterns →
      ((p.type = "time" ∧ p.confidence = min ((p.sampleSize : ℚ) / 10) 1) ∨
       (p.type = "time_day" ∧ p.confidence = min ((p.sampleSize : ℚ) / 5) 1) ∨
       (p.type = "duration" ∧ p.confidence = min ((p.sampleSize : ℚ) / 10) 1) ∨
       (p.type = "frequency" ∧ p.confidence = min ((p.sampleSize : ℚ) / 15) 1) ∨
       (p.type = "sequence" ∧ p.confidence = min ((p.sampleSize : ℚ) / 10) 1)) ∧
      0 ≤ p.confidence ∧ p.confidence ≤ 1) := by
  refine ⟨fun h t p hp => analyzeTimePatterns_sound hp,
          fun h t p hp =>
            let s := analyzeDurationPatterns_sound hp
            ⟨⟨s.1, s.2.1⟩, s.2.2⟩,
          fun h t p hp =>
            let s := analyzeFrequencyPatterns_sound hp
            ⟨⟨s.1, s.2.1⟩, s.2.2⟩,
          fun h t p hp =>
            let s := analyzeSequencePatterns_sound hp
            ⟨⟨s.2.1, s.2.2.1 ▸ s.2.2.2.1⟩, s.2.2.2.2.1, s.2.2.2.2.2.1⟩,
          ?_⟩
  intro st p hgate hp
  rw [analyzeRun, if_neg (by omega)] at hp
  simp only [List.append_assoc, List.mem_append] at hp
  rcases hp with hp | hp | hp | hp | hp
  · obtain ⟨hc, hb⟩ := analyzeTimePatterns_sound hp
    exact ⟨hc.imp id Or.inl, hb⟩
  · obtain ⟨hty, hconf, hb⟩ := analyzeDurationPatterns_sound hp
    exact ⟨Or.inr (Or.inr (Or.inl ⟨hty, hconf⟩)), hb⟩
  · obtain ⟨hty, hconf, hb⟩ := analyzeFrequencyPatterns_sound hp
    exact ⟨Or.inr (Or.inr (Or.inr (Or.inl ⟨hty, hconf⟩))), hb⟩
  · obtain ⟨_, hty, hss, hconf, hb0, hb1, _⟩ := analyzeSequencePatterns_sound hp
    exact ⟨Or.inr (Or.inr (Or.inr (Or.inr ⟨hty, hconf⟩))), hb0, hb1⟩
  · obtain ⟨q, g, _, hq, hty, hconf, hss⟩ := periodPatternsOf_sound hp
    obtain ⟨hc, hb⟩ := analyzeTimePatterns_sound hq
    refine ⟨?_, hconf ▸ hb⟩
    rcases hc with ⟨h1, h2⟩ | ⟨h1, h2⟩
    · exact Or.inl ⟨hty.trans h1, by rw [hconf, hss, h2]⟩
    · exact Or.inr (Or.inl ⟨hty.trans h1, by rw [hconf, hss, h2]⟩)

/-! ### Claim theorems -/

/-- C1 counterexample: for the duration pattern averaging 40 actual vs 60
planned minutes over 5 samples (|percentDifference| = 33 > 20,
difference = −20 < −15), the emitted overestimate insight has
`actionable = true`, refuting the claim that its actionable flag is false. -/
theorem claim1_counterexample :
    (generateDurationInsights [overestimatePattern] []).map
        (fun i => (i.title, i.actionable)) = [("Durata sovrastimata", true)] := by
  decide

/-- C1 (amended): for every duration pattern with |percentDifference| > 20
and sampleSize ≥ 5 whose average actual duration is shorter than planned by
more than 15 minutes (difference < −15), the emitted overestimate insight
has priority min(|percentDifference|/15, 6) and carries no action payload,
but its `actionable` flag is `true` (not false as claimed). -/
theorem claim1_overestimate_insight (patterns : List Pattern) (tasks : List Task)
    (p : Pattern) (hp : p ∈ patterns) (hpd : 20 < |p.percentDifference|)
    (hss : 5 ≤ p.sampleSize) (hdiff : p.difference < -15) :
    ∃ i ∈ generateDurationInsights patterns tasks,
      i.title = "Durata sovrastimata" ∧ i.taskId = some p.taskId ∧
      i.priority = min ((|p.percentDifference| : ℚ) / 15) 6 ∧
      i.actionable = true ∧ i.action = none := by
  refine ⟨{ type := "optimization"
            title := "Durata sovrastimata"
            taskId := some p.taskId
            priority := min ((|p.percentDifference| : ℚ) / 15) 6
            actionable := true }, ?_, rfl, rfl, rfl, rfl, rfl⟩
  rw [generateDurationInsights, List.mem_flatMap]
  refine ⟨p, hp, ?_⟩
  have hnotpos : ¬ 0 < p.difference := by omega
  rw [if_pos ⟨hpd, hss⟩, if_neg hnotpos, if_pos hdiff]
  exact List.mem_singleton.2 rfl

/-- C1 witness: the amended theorem applied to the concrete overestimate
pattern. -/
theorem claim1_witness :
    ∃ i ∈ generateDurationInsights [overestimatePattern] [],
      i.title = "Durata sovrastimata" ∧ i.taskId = some overestimatePattern.taskId ∧
      i.priority = min ((|overestimatePattern.percentDifference| : ℚ) / 15) 6 ∧
      i.actionable = true ∧ i.action = none :=
  claim1_overestimate_insight [overestimatePattern] [] overestimatePattern
    (by decide) (by decide) (by decide) (by decide)

/-- C2 counterexample: a history of two completed entries sharing one date
(one distinct date) yields a frequency pattern, refuting the claim that
fewer than 2 distinct dates give an empty pattern list. -/
theorem claim2_counterexample :
    (sameDayHistory.map (fun e => e.date)).dedup.length = 1 ∧
    sameDayHistory.length = 2 ∧
    (analyzeFrequencyPatterns sameDayHistory sameDayTasks).length = 1 := by
  decide

/-- C2 (amended): `analyzeFrequencyPatterns` returns the empty pattern list
whenever the history contains fewer than 2 entries; a history of two or
more entries that all share one date is not gated (the day-span is clamped
to 1) and does yield patterns. -/
theorem claim2_frequency_gate (history : List HistoryEntry) (tasks : List Task)
    (h : history.length < 2) : analyzeFrequencyPatterns history tasks = [] := by
  rw [analyzeFrequencyPatterns, if_pos h]

/-- C2 witness: the amended gate applied to a single-entry history. -/
theorem claim2_witness :
    analyzeFrequencyPatterns [{ taskId := "a", date := 0 }] sameDayTasks = [] :=
  claim2_frequency_gate _ _ (by decide)

/-- C3 bug demonstration: over `zeroGapHistory` the transition `A→B` occurs
3 times and three valid gaps (each 0 minutes) are collected, yet the
emitted pattern's `averageGap` is `null` — the source's
`avgGap ? Math.round(avgGap) : null` treats the falsy mean 0 like "no gaps
collected", contradicting the claimed null ⟺ no-valid-gap equivalence. -/
theorem claim3_zero_gap_is_null :
    ((adjacentSameDay (stableSort histLE (completedOf zeroGapHistory))).filterMap
        transitionGap = [0, 0, 0]) ∧
    (analyzeSequencePatterns zeroGapHistory zeroGapTasks).map
        (fun p => (p.count, p.averageGap)) = [(3, none)] := by
  decide

/-- C4: below the 5-entry gate, `analyze()` returns exactly one insight, of
type `info`, together with the previously persisted pattern list, and
leaves the store state unchanged (no analyzer output is written). -/
theorem claim4_gate (st : AnalyzeState) (h : st.history.length < 5) :
    (analyzeRun st).1.insights.map (fun i => i.type) = ["info"] ∧
    (analyzeRun st).1.patterns = st.patternStore ∧
    (analyzeRun st).2 = st := by
  rw [analyzeRun, if_pos h]
  exact ⟨rfl, rfl, rfl⟩

/-- C4 witness: the gate applied to a 3-entry history with a nonempty
persisted store. -/
theorem claim4_witness :
    (analyzeRun gateState).1.insights.map (fun i => i.type) = ["info"] ∧
    (analyzeRun gateState).1.patterns = gateState.patternStore ∧
    (analyzeRun gateState).2 = gateState :=
  claim4_gate gateState (by decide)

/-- C9: `analyze()` is deterministic and idempotent — re-running it on the
store state left by a first run (same tasks, history, schedule, special
periods and period categories) returns the same insight list and the same
pattern list, and leaves the store in the same state. -/
theorem claim9_idempotent (st : AnalyzeState) :
    (analyzeRun ((analyzeRun st).2)).1 = (analyzeRun st).1 := by
  obtain ⟨tasks, history, schedule, store, sps, pcs⟩ := st
  by_cases h : history.length < 5
  · simp [analyzeRun, h]
  · simp [analyzeRun, h]

/-- C5 witness: the confidence invariant applied to the concrete `time`
pattern emitted for three 09:00-ish completions. -/
theorem claim5_witness :
    timeSamplePattern ∈ analyzeTimePatterns threeSampleHistory roundingTasks ∧
    (((timeSamplePattern.type = "time" ∧
       timeSamplePattern.confidence = min ((timeSamplePattern.sampleSize : ℚ) / 10) 1) ∨
      (timeSamplePattern.type = "time_day" ∧
       timeSamplePattern.confidence = min ((timeSamplePattern.sampleSize : ℚ) / 5) 1)) ∧
     0 ≤ timeSamplePattern.confidence ∧ timeSamplePattern.confidence ≤ 1) :=
  ⟨by decide,
   claim5_confidence_bounds.1 threeSampleHistory roundingTasks timeSamplePattern
     (by decide)⟩

/-- C6 counterexample: two completions of a catalogued task on the same
weekday with stdDev 5 < 45 satisfy the claim's stated `time_day` conditions
(group ≥ 2 samples, stdDev < 45), yet the analyzer emits nothing — the
task-level ≥3-samples gate (`times.length < 3 → continue`) also guards the
weekday patterns. -/
theorem claim6_counterexample :
    2 ≤ (((completedOf twoSampleHistory).filter (fun e => e.taskId = "t")).filter
      (fun e => dayOfWeek e.date = 4)).length ∧
    varianceOf ((((completedOf twoSampleHistory).filter
      (fun e => e.taskId = "t")).filter (fun e => dayOfWeek e.date = 4)).map
      (fun e => timeToMinutes e.startTime)) < 45 ^ 2 ∧
    (roundingTasks.find? (fun a => a.id = "t")).isSome ∧
    analyzeTimePatterns twoSampleHistory roundingTasks = [] := by
  decide

/-- C6 (amended): `analyzeTimePatterns` emits a `time` pattern for task `t`
iff `t` has ≥3 completed entries, is present in the catalog, and the
population standard deviation of its start minutes is below 60 (embedded as
variance < 60²), with confidence min(sampleSize/10, 1); it emits a
`time_day` pattern for `(t, d)` iff additionally — beyond the claim's
stated group conditions (≥2 samples, stdDev < 45) — the task itself passes
the ≥3-completions-and-in-catalog gate, with confidence
min(sampleSize/5, 1). -/
theorem claim6_time_thresholds (h : List HistoryEntry) (tasks : List Task)
    (t : String) (d : ℕ) :
    ((∃ p ∈ analyzeTimePatterns h tasks, p.type = "time" ∧ p.taskId = t) ↔
      (3 ≤ ((completedOf h).filter (fun e => e.taskId = t)).length ∧
       (tasks.find? (fun a => a.id = t)).isSome ∧
       varianceOf (((completedOf h).filter (fun e => e.taskId = t)).map
         (fun e => timeToMinutes e.startTime)) < 60 ^ 2)) ∧
    (∀ p ∈ analyzeTimePatterns h tasks, p.type = "time" → p.taskId = t →
      p.sampleSize = ((completedOf h).filter (fun e => e.taskId = t)).length ∧
      p.confidence = min ((p.sampleSize : ℚ) / 10) 1) ∧
    ((∃ p ∈ analyzeTimePatterns h tasks,
        p.type = "time_day" ∧ p.taskId = t ∧ p.dayOfWeek = d) ↔
      (3 ≤ ((completedOf h).filter (fun e => e.taskId = t)).length ∧
       (tasks.find? (fun a => a.id = t)).isSome ∧
       2 ≤ (((completedOf h).filter (fun e => e.taskId = t)).filter
         (fun e => dayOfWeek e.date = d)).length ∧
       varianceOf ((((completedOf h).filter (fun e => e.taskId = t)).filter
         (fun e => dayOfWeek e.date = d)).map
         (fun e => timeToMinutes e.startTime)) < 45 ^ 2)) ∧
    (∀ p ∈ analyzeTimePatterns h tasks,
      p.type = "time_day" → p.taskId = t → p.dayOfWeek = d →
      p.sampleSize = (((completedOf h).filter (fun e => e.taskId = t)).filter
        (fun e => dayOfWeek e.date = d)).length ∧
      p.confidence = min ((p.sampleSize : ℚ) / 5) 1) := by
  refine ⟨⟨?_, ?_⟩, ?_, ⟨?_, ?_⟩, ?_⟩
  · rintro ⟨p, hp, hty, hid⟩
    obtain ⟨t', hne, hpb⟩ := analyzeTimePatterns_mem_iff.1 hp
    obtain ⟨hlen3, task, hfind, hcases⟩ := timeTaskBlock_sound hpb
    rcases hcases with ⟨hvar, rfl⟩ | hday
    · have hid' : t' = t := hid
      subst hid'
      refine ⟨by rw [List.length_map] at hlen3; exact hlen3,
              Option.isSome_iff_exists.2 ⟨task, hfind⟩, ?_⟩
      rw [timeProj_minutes] at hvar
      exact hvar
    · obtain ⟨day, _, _, _, rfl⟩ := timeDayBlock_sound hday
      simp at hty
  · rintro ⟨hlen3, hsome, hvar⟩
    obtain ⟨task, hfind⟩ := Option.isSome_iff_exists.1 hsome
    have hne : (completedOf h).filter (fun e => e.taskId = t) ≠ [] := by
      intro hnil
      rw [hnil] at hlen3
      simp at hlen3
    obtain ⟨p, hpb, hty, hid⟩ := timeTaskBlock_time_complete
      (((completedOf h).filter (fun e => e.taskId = t)).map timeProj)
      (by rw [List.length_map]; exact hlen3) hfind
      (by rw [timeProj_minutes]; exact hvar)
    exact ⟨p, analyzeTimePatterns_mem_iff.2 ⟨t, hne, hpb⟩, hty, hid⟩
  · intro p hp hty hid
    obtain ⟨t', hne, hpb⟩ := analyzeTimePatterns_mem_iff.1 hp
    obtain ⟨hlen3, task, hfind, hcases⟩ := timeTaskBlock_sound hpb
    rcases hcases with ⟨hvar, rfl⟩ | hday
    · have hid' : t' = t := hid
      subst hid'
      exact ⟨List.length_map .., rfl⟩
    · obtain ⟨day, _, _, _, rfl⟩ := timeDayBlock_sound hday
      simp at hty
  · rintro ⟨p, hp, hty, hid, hd⟩
    obtain ⟨t', hne, hpb⟩ := analyzeTimePatterns_mem_iff.1 hp
    obtain ⟨hlen3, task, hfind, hcases⟩ := timeTaskBlock_sound hpb
    rcases hcases with ⟨hvar, rfl⟩ | hday
    · simp at hty
    · obtain ⟨day, hday7, hglen, hgvar, rfl⟩ := timeDayBlock_sound hday
      have hid' : t' = t := hid
      subst hid'
      have hd' : day = d := hd
      subst hd'
      refine ⟨by rw [List.length_map] at hlen3; exact hlen3,
              Option.isSome_iff_exists.2 ⟨task, hfind⟩, ?_, ?_⟩
      · rw [timeProj_day_filter, List.length_map] at hglen
        exact hglen
      · rw [timeProj_day_filter, timeProj_minutes] at hgvar
        exact hgvar
  · rintro ⟨hlen3, hsome, hglen, hgvar⟩
    obtain ⟨task, hfind⟩ := Option.isSome_iff_exists.1 hsome
    have hne : (completedOf h).filter (fun e => e.taskId = t) ≠ [] := by
      intro hnil
      rw [hnil] at hlen3
      simp at hlen3
    have hd7 : d < 7 := by
      have hdne : ((completedOf h).filter (fun e => e.taskId = t)).filter
          (fun e => dayOfWeek e.date = d) ≠ [] := by
        intro hnil
        rw [hnil] at hglen
        simp at hglen
      obtain ⟨e, he⟩ := List.exists_mem_of_ne_nil _ hdne
      have hde : dayOfWeek e.date = d := by
        simpa using (List.mem_filter.1 he).2
      rw [← hde]
      simp only [dayOfWeek]
      omega
    obtain ⟨p, hpb, hty, hid, hdw⟩ := timeTaskBlock_day_complete
      (((completedOf h).filter (fun e => e.taskId = t)).map timeProj)
      (by rw [List.length_map]; exact hlen3) hfind hd7
      (by rw [timeProj_day_filter, List.length_map]; exact hglen)
      (by rw [timeProj_day_filter, timeProj_minutes]; exact hgvar)
    exact ⟨p, analyzeTimePatterns_mem_iff.2 ⟨t, hne, hpb⟩, hty, hid, hdw⟩
  · intro p hp hty hid hd
    obtain ⟨t', hne, hpb⟩ := analyzeTimePatterns_mem_iff.1 hp
    obtain ⟨hlen3, task, hfind, hcases⟩ := timeTaskBlock_sound hpb
    rcases hcases with ⟨hvar, rfl⟩ | hday
    · simp at hty
    · obtain ⟨day, hday7, hglen, hgvar, rfl⟩ := timeDayBlock_sound hday
      have hid' : t' = t := hid
      subst hid'
      have hd' : day = d := hd
      subst hd'
      constructor
      · show ((((completedOf h).filter (fun e => e.taskId = t')).map
          timeProj).filter (fun x => x.2 = day)).length = _
        rw [timeProj_day_filter, List.length_map]
      · rfl

/-- C6 witness: the amended characterization applied to three completions
of the catalogued task `t` at 09:00, 09:05, 09:10. -/
theorem claim6_witness :
    ∃ p ∈ analyzeTimePatterns threeSampleHistory roundingTasks,
      p.type = "time" ∧ p.taskId = "t" :=
  (claim6_time_thresholds threeSampleHistory roundingTasks "t" 4).1.2
    ⟨by decide, by decide, by decide⟩

set_option maxRecDepth 40000

/-- C7: every emitted sequence pattern comes from a transition observed at
least 3 times between catalogued tasks; the result is sorted by count
descending and holds at most 20 patterns; and the concrete input with 25
distinct qualifying transitions (each occurring 3 times) yields exactly 20
patterns. -/
theorem claim7_sequence_cap :
    (∀ h t p, p ∈ analyzeSequencePatterns h t →
      3 ≤ p.count ∧ (∃ a ∈ t, a.id = p.fromTaskId) ∧
      (∃ b ∈ t, b.id = p.toTaskId)) ∧
    (∀ h t, (analyzeSequencePatterns h t).Pairwise
      (fun a b => b.count ≤ a.count)) ∧
    (∀ h t, (analyzeSequencePatterns h t).length ≤ 20) ∧
    (analyzeSequencePatterns seqCapHistory seqCapTasks).length = 20 := by
  refine ⟨?_, ?_, ?_, by decide⟩
  · intro h t p hp
    obtain ⟨h3, _, _, _, _, _, hfrom, hto⟩ := analyzeSequencePatterns_sound hp
    exact ⟨h3, hfrom, hto⟩
  · intro h t
    rw [analyzeSequencePatterns]
    refine List.Pairwise.sublist (List.take_sublist _ _) ?_
    have hs := pairwise_stableSort (fun a b : Pattern => b.count ≤ a.count)
      (fun a b c hab hbc => by
        simp only [decide_eq_true_eq] at *
        omega)
      (fun a b => by
        simp only [decide_eq_true_eq]
        omega) ((groupByKey seqKey (adjacentSameDay (stableSort histLE
          (h.filter (fun e => e.status = "completed"))))).flatMap
          (fun g => sequenceBlock t g.2))
    exact hs.imp (fun hab => by simpa using hab)
  · intro h t
    rw [analyzeSequencePatterns]
    simp

/-- C7 witness: the soundness part applied to the concrete `A→B`
transition repeated three times. -/
theorem claim7_witness :
    seqWitnessPattern ∈ analyzeSequencePatterns seqWitnessHistory zeroGapTasks ∧
    (3 ≤ seqWitnessPattern.count ∧
     (∃ a ∈ zeroGapTasks, a.id = seqWitnessPattern.fromTaskId) ∧
     (∃ b ∈ zeroGapTasks, b.id = seqWitnessPattern.toTaskId)) :=
  ⟨by decide,
   claim7_sequence_cap.1 seqWitnessHistory zeroGapTasks seqWitnessPattern
     (by decide)⟩

theorem sugLE_iff (a b : Suggestion) :
    sugLE a b = true ↔
      a.suggestedTime.hours < b.suggestedTime.hours ∨
      (a.suggestedTime.hours = b.suggestedTime.hours ∧
       (a.suggestedTime.minutes < b.suggestedTime.minutes ∨
        (a.suggestedTime.minutes = b.suggestedTime.minutes ∧
         b.confidence ≤ a.confidence))) := by
  simp only [sugLE]
  split_ifs with h1 h2 h3 h4
  · exact iff_of_true rfl (Or.inl h1)
  · refine iff_of_false (by simp) ?_
    rintro (hc | ⟨hc, _⟩) <;> omega
  · exact iff_of_true rfl (Or.inr ⟨by omega, Or.inl h3⟩)
  · refine iff_of_false (by simp) ?_
    rintro (hc | ⟨_, hm | ⟨hm, _⟩⟩) <;> omega
  · rw [decide_eq_true_eq]
    constructor
    · intro hc
      exact Or.inr ⟨by omega, Or.inr ⟨by omega, hc⟩⟩
    · rintro (hc | ⟨_, hm | ⟨_, hc⟩⟩)
      · omega
      · omega
      · exact hc

theorem sugLE_total (a b : Suggestion) : sugLE a b = true ∨ sugLE b a = true := by
  rw [sugLE_iff, sugLE_iff]
  rcases Nat.lt_trichotomy a.suggestedTime.hours b.suggestedTime.hours with h | h | h
  · exact Or.inl (Or.inl h)
  · rcases Nat.lt_trichotomy a.suggestedTime.minutes b.suggestedTime.minutes with
      hm | hm | hm
    · exact Or.inl (Or.inr ⟨h, Or.inl hm⟩)
    · rcases le_total a.confidence b.confidence with hc | hc
      · exact Or.inr (Or.inr ⟨h.symm, Or.inr ⟨hm.symm, hc⟩⟩)
      · exact Or.inl (Or.inr ⟨h, Or.inr ⟨hm, hc⟩⟩)
    · exact Or.inr (Or.inr ⟨h.symm, Or.inl hm⟩)
  · exact Or.inr (Or.inl h)

theorem sugLE_trans (a b c : Suggestion) (hab : sugLE a b = true)
    (hbc : sugLE b c = true) : sugLE a c = true := by
  rw [sugLE_iff] at hab hbc ⊢
  rcases hab with h1 | ⟨h1, hm1 | ⟨hm1, hc1⟩⟩ <;>
    rcases hbc with h2 | ⟨h2, hm2 | ⟨hm2, hc2⟩⟩
  · exact Or.inl (by omega)
  · exact Or.inl (by omega)
  · exact Or.inl (by omega)
  · exact Or.inl (by omega)
  · exact Or.inr ⟨by omega, Or.inl (by omega)⟩
  · exact Or.inr ⟨by omega, Or.inl (by omega)⟩
  · exact Or.inl (by omega)
  · exact Or.inr ⟨by omega, Or.inl (by omega)⟩
  · exact Or.inr ⟨by omega, Or.inr ⟨by omega, le_trans hc2 hc1⟩⟩

/-- C8: `generateRoutineSuggestion` emits a suggestion for a frequency
pattern exactly when its preferred-day entry for the target weekday (first
match of `find`) has share ≥ 20%, the task is in the catalog, and a
matching `time_day` pattern (same task and weekday) or a general `time`
pattern exists; the `time_day` time is preferred and boosts the frequency
confidence by ×1.2, the `time` fallback leaves it unboosted (×1); the
returned list is sorted by suggested time ascending with ties broken by
confidence descending. -/
theorem claim8_routine_suggestion (patterns : List Pattern) (tasks : List Task)
    (day : ℕ) :
    (∀ fp ∈ patterns, fp.type = "frequency" →
      ∀ dp, fp.preferredDays.find? (fun x => x.day = day) = some dp →
      ¬ dp.percentage < 20 →
      ∀ task, tasks.find? (fun a => a.id = fp.taskId) = some task →
      (∀ dtp, (patterns.filter (fun p => p.type = "time" ∨ p.type = "time_day")).find?
          (fun p => p.type = "time_day" ∧ p.taskId = fp.taskId ∧ p.dayOfWeek = day) =
            some dtp →
        { taskId := task.id, taskName := task.name, category := task.category
          suggestedTime := dtp.averageTime, duration := task.defaultDuration
          confidence := fp.confidence * (6/5) : Suggestion } ∈
          generateRoutineSuggestion patterns tasks day) ∧
      ((patterns.filter (fun p => p.type = "time" ∨ p.type = "time_day")).find?
          (fun p => p.type = "time_day" ∧ p.taskId = fp.taskId ∧ p.dayOfWeek = day) =
            none →
       ∀ gtp, (patterns.filter (fun p => p.type = "time" ∨ p.type = "time_day")).find?
          (fun p => p.type = "time" ∧ p.taskId = fp.taskId) = some gtp →
        { taskId := task.id, taskName := task.name, category := task.category
          suggestedTime := gtp.averageTime, duration := task.defaultDuration
          confidence := fp.confidence * 1 : Suggestion } ∈
          generateRoutineSuggestion patterns tasks day)) ∧
    (∀ s ∈ generateRoutineSuggestion patterns tasks day,
      ∃ fp ∈ patterns, fp.type = "frequency" ∧
      ∃ dp, fp.preferredDays.find? (fun x => x.day = day) = some dp ∧
        ¬ dp.percentage < 20 ∧
      ∃ task, tasks.find? (fun a => a.id = fp.taskId) = some task ∧
        s.taskId = task.id ∧ s.duration = task.defaultDuration ∧
        ((∃ dtp, (patterns.filter (fun p => p.type = "time" ∨ p.type = "time_day")).find?
            (fun p => p.type = "time_day" ∧ p.taskId = fp.taskId ∧ p.dayOfWeek = day) =
              some dtp ∧
          s.suggestedTime = dtp.averageTime ∧
          s.confidence = fp.confidence * (6/5)) ∨
         ((patterns.filter (fun p => p.type = "time" ∨ p.type = "time_day")).find?
            (fun p => p.type = "time_day" ∧ p.taskId = fp.taskId ∧ p.dayOfWeek = day) =
              none ∧
          ∃ gtp, (patterns.filter (fun p => p.type = "time" ∨ p.type = "time_day")).find?
            (fun p => p.type = "time" ∧ p.taskId = fp.taskId) = some gtp ∧
          s.suggestedTime = gtp.averageTime ∧
          s.confidence = fp.confidence * 1))) ∧
    (generateRoutineSuggestion patterns tasks day).Pairwise
      (fun a b => sugLE a b = true) := by
  refine ⟨?_, ?_, ?_⟩
  · intro fp hfp hty dp hdp hdp20 task htask
    constructor
    · intro dtp hdtp
      rw [generateRoutineSuggestion, mem_stableSort, List.mem_filterMap]
      refine ⟨fp, List.mem_filter.2 ⟨hfp, by simp [hty]⟩, ?_⟩
      rw [suggestionFor]
      simp only [hdp, if_neg hdp20, htask, hdtp]
    · intro hnone gtp hgtp
      rw [generateRoutineSuggestion, mem_stableSort, List.mem_filterMap]
      refine ⟨fp, List.mem_filter.2 ⟨hfp, by simp [hty]⟩, ?_⟩
      rw [suggestionFor]
      simp only [hdp, if_neg hdp20, htask, hnone, hgtp]
  · intro s hs
    rw [generateRoutineSuggestion, mem_stableSort, List.mem_filterMap] at hs
    obtain ⟨fp, hfp, heq⟩ := hs
    obtain ⟨hfpmem, hfpty⟩ := List.mem_filter.1 hfp
    refine ⟨fp, hfpmem, by simpa using hfpty, ?_⟩
    rw [suggestionFor] at heq
    split at heq
    · cases heq
    · rename_i dp hdp
      -- `split_ifs` closes the below-20% branch (`none = some s`) itself
      split_ifs at heq with h20
      split at heq
      · cases heq
      · rename_i task htask
        split at heq
        · rename_i dtp hdtp
          cases heq
          exact ⟨dp, hdp, h20, task, htask, rfl, rfl,
            Or.inl ⟨dtp, hdtp, rfl, rfl⟩⟩
        · rename_i hdnone
          split at heq
          · rename_i gtp hgtp
            cases heq
            exact ⟨dp, hdp, h20, task, htask, rfl, rfl,
              Or.inr ⟨hdnone, gtp, hgtp, rfl, rfl⟩⟩
          · cases heq
  · exact pairwise_stableSort sugLE sugLE_trans sugLE_total _

/-- C8 witness: the fallback branch applied to a frequency pattern for task
`t` (weekday 2 at 30% share) with only a general `time` pattern at 07:30 —
the suggestion appears at 07:30 with unboosted confidence. -/
theorem claim8_witness :
    { taskId := "t", taskName := "T", category := ""
      suggestedTime := ⟨7, 30⟩, duration := 0
      confidence := routineFreqPattern.confidence * 1 : Suggestion } ∈
      generateRoutineSuggestion [routineFreqPattern, routineTimePattern]
        roundingTasks 2 :=
  ((claim8_routine_suggestion [routineFreqPattern, routineTimePattern]
      roundingTasks 2).1 routineFreqPattern (by decide) (by decide)
      ⟨2, 3, 30⟩ (by decide) (by decide) { id := "t", name := "T" } (by decide)).2
    (by decide) routineTimePattern (by decide)

/-- C10 bug demonstration: for completions at 01:59, 02:00, 02:00 the time
analyzer emits a `time` pattern whose `averageTime` has minute component
60 (`"01:60"`): `minutesToTime` rounds the fractional minute 59.67 up to 60
without carrying into the hour, so the emitted field is not a well-formed
clock value with minutes in [0, 59]. -/
theorem claim10_minute_60 :
    (analyzeTimePatterns roundingHistory roundingTasks).map
        (fun p => p.averageTime) = [⟨1, 60⟩] ∧
    minutesToTime (359/3) = ⟨1, 60⟩ := by
  decide

end FlowDay
